import Mathlib

/-!
Verification of the multi-replica orchestration core of the `agent-gpt`
repository, shallowly embedded from the Python sources
`src/environments/unity_backend.py` (class `UnityBackend`) and
`src/utils/gym_space.py`.

Modelling conventions: numpy arrays become Lean lists, observation entries
and rewards become rationals, per-agent observation rows become `List Rat`,
fallible setup code returns `Except`.  All definitions are executable.
-/

namespace AgentGpt

/-! ## Space descriptors (`src/utils/gym_space.py`) -/

/-- Gym space descriptors as consumed by `compute_space_dimension` in
`src/utils/gym_space.py`: `Box`, `Discrete`, `MultiDiscrete`, `Tuple`
and `Dict`.  A `Box` carries its shape tuple; its bounds are irrelevant
to the dimension computation and are omitted. -/
inductive GymSpace where
  | box (shape : List Nat)
  | discrete (n : Nat)
  | multiDiscrete (nvec : List Nat)
  | tuple (spaces : List GymSpace)
  | dict (spaces : List (String × GymSpace))
deriving Repr

mutual

/-- `compute_space_dimension` from `src/utils/gym_space.py` lines 28-45:
`Box` returns `int(shape[-1])` (the last shape entry; modelled with
default `0` where Python would raise on an empty shape), `Discrete`
returns `n`, `MultiDiscrete` returns `sum(nvec)`, and `Tuple`/`Dict`
sum the dimension over their subspaces. -/
def compute_space_dimension : GymSpace → Nat
  | .box shape => shape.getLastD 0
  | .discrete n => n
  | .multiDiscrete nvec => nvec.sum
  | .tuple sps => sumSpaceDims sps
  | .dict sps => sumNamedSpaceDims sps

/-- Sum of `compute_space_dimension` over a `Tuple`'s subspaces. -/
def sumSpaceDims : List GymSpace → Nat
  | [] => 0
  | s :: rest => compute_space_dimension s + sumSpaceDims rest

/-- Sum of `compute_space_dimension` over a `Dict`'s subspaces
(`.spaces.values()`; the keys do not enter the computation). -/
def sumNamedSpaceDims : List (String × GymSpace) → Nat
  | [] => 0
  | p :: rest => compute_space_dimension p.2 + sumNamedSpaceDims rest

end

/-! ## Observation-space setup (`UnityBackend._define_observation_space`) -/

/-- `UnityBackend._define_observation_space` (lines 117-133): if any
component shape has `len(shape) == 3` it raises
`ValueError("Image observations are not supported.")`; otherwise it
records the per-agent combined width `sum(np.prod(shape))` over the
component shapes and builds the `(num_agents, combined_dim)` space. -/
def define_observation_space (num_agents : Nat) (observation_shapes : List (List Nat)) :
    Except String (Nat × Nat) :=
  if observation_shapes.any (fun shape => shape.length == 3) then
    Except.error "Image observations are not supported."
  else
    Except.ok (num_agents, (observation_shapes.map (fun shape => shape.prod)).sum)

/-! ## Agent index map (`UnityBackend._initialize_env_info`, lines 89-115) -/

/-- The inner loop of `UnityBackend._initialize_env_info`: with
`total` agents registered so far, the current replica maps local id
`local_idx` to global index `total + local_idx`, and the running total
advances by the replica's agent count. -/
def buildL2G : Nat → List Nat → List (List Nat)
  | _, [] => []
  | total, n_agents :: rest =>
      ((List.range n_agents).map (fun local_idx => total + local_idx)) :: buildL2G (total + n_agents) rest

/-- `self.from_local_to_global` as built by `_initialize_env_info` from the
per-replica agent counts `self.agent_per_envs`. -/
def from_local_to_global (agent_per_envs : List Nat) : List (List Nat) :=
  buildL2G 0 agent_per_envs

/-- Global index of the first agent of replica `r`: the number of agents
hosted by replicas before `r`. -/
def env_offset (agent_per_envs : List Nat) (r : Nat) : Nat :=
  (agent_per_envs.take r).sum

/-! ## Decision-agent mask (`UnityBackend.reset` lines 187-188 and
`UnityBackend.step` lines 240-241) -/

/-- The decision-mask rebuild performed identically by `reset` and `step`:
`self.decision_agents[env_idx] = np.zeros_like(...)` followed by
`self.decision_agents[env_idx][decision_steps.agent_id] = True`. -/
def update_decision_agents (n_agents : Nat) (decision_ids : List Nat) : List Bool :=
  decision_ids.foldl (fun mask agent_id => mask.set agent_id true)
    (List.replicate n_agents false)

/-! ## Action dispatch (`UnityBackend.step` lines 216-230) -/

/-- numpy boolean-mask selection `env_actions[decision_check]`: keep the
rows whose mask entry is `true`, in order. -/
def mask_select {α : Type} (xs : List α) (mask : List Bool) : List α :=
  (xs.zip mask).filterMap (fun p => if p.2 then some p.1 else none)

/-- The per-replica action loop of `UnityBackend.step`: starting from
`action_offset`, each replica takes the slice
`actions[action_offset : action_offset + num_agents_in_env]` and selects
the rows of its current decision agents. -/
def dispatchFrom {α : Type} (actions : List α) : Nat → List (Nat × List Bool) → List (List α)
  | _, [] => []
  | action_offset, (num_agents_in_env, decision_check) :: rest =>
      mask_select ((actions.drop action_offset).take num_agents_in_env) decision_check ::
        dispatchFrom actions (action_offset + num_agents_in_env) rest

/-- The action batches handed to the replicas by one `step` call, given the
global action array, the per-replica agent counts and the per-replica
decision masks left by the previous `reset`/`step`. -/
def dispatch_actions {α : Type} (actions : List α) (agent_per_envs : List Nat)
    (decision_agents : List (List Bool)) : List (List α) :=
  dispatchFrom actions 0 (agent_per_envs.zip decision_agents)

/-! ## Observation aggregation (`UnityBackend.aggregate_observations`,
lines 297-314) -/

/-- Write `vals` into `row` starting at column `offset`
(`aggregated[i, offset:offset+size] = obs[i]`); `List.set` beyond the row
width is a no-op, mirroring that numpy cannot write outside the slice. -/
def setSlice : List Rat → Nat → List Rat → List Rat
  | row, _, [] => row
  | row, offset, v :: vs => setSlice (row.set offset v) (offset + 1) vs

/-- One component write of `aggregate_observations`:
`aggregated[:, offset:offset + size] = obs`, where `obs` has already been
reshaped to one flat row per agent. -/
def write_component (aggregated : List (List Rat)) (offset size : Nat)
    (obs : List (List Rat)) : List (List Rat) :=
  aggregated.mapIdx (fun i row => setSlice row offset ((obs.getD i []).take size))

/-- `UnityBackend.aggregate_observations`: `num_agents` is the row count of
the first component (`len(observations[0])`), the zero buffer has width
`sum(np.prod(shape))` over `self.observation_shapes`, the zero-agent case
returns the buffer unchanged, and otherwise each component is written into
its column slice at a running offset. -/
def aggregate_observations (observation_shapes : List (List Nat))
    (observations : List (List (List Rat))) : List (List Rat) :=
  let num_agents := (observations.headD []).length
  let combined_dim := (observation_shapes.map (fun shape => shape.prod)).sum
  let aggregated := List.replicate num_agents (List.replicate combined_dim (0 : Rat))
  if num_agents < 1 then aggregated
  else
    ((observations.zip observation_shapes).foldl
      (fun (st : List (List Rat) × Nat) p =>
        (write_component st.1 st.2 p.2.prod p.1, st.2 + p.2.prod))
      (aggregated, 0)).1

/-! ## Step reconciliation (`UnityBackend.step`, lines 236-295) -/

/-- One observation row (the per-agent output of `aggregate_observations`). -/
abbrev Obs := List Rat

/-- One replica's `env.get_steps(...)` result for a tick, with the
observations already aggregated into one row per reported agent
(`dec_obs = self.aggregate_observations(decision_steps.obs)` and likewise
for the terminal side); `decision_obs`/`decision_reward` are parallel to
`decision_ids`, the terminal fields parallel to `terminal_ids`.
`interrupted` is the backend's per-terminal-agent truncation report
(`terminal_steps.interrupted`), which is present in the backend data but
never read by `UnityBackend.step`. -/
structure ReplicaSteps where
  decision_ids : List Nat
  decision_obs : List Obs
  decision_reward : List Rat
  terminal_ids : List Nat
  terminal_obs : List Obs
  terminal_reward : List Rat
  interrupted : List Bool
deriving Repr, DecidableEq, Inhabited

/-- `common_agent_ids = set(decision_steps.agent_id) ∩ set(terminal_steps.agent_id)`.
The Python iterates sets in unspecified order; since the loop bodies write
pairwise distinct global rows, any enumeration yields the same arrays, and
we enumerate in `decision_ids` order. -/
def common_agent_ids (sd : ReplicaSteps) : List Nat :=
  sd.decision_ids.filter (fun agent_id => agent_id ∈ sd.terminal_ids)

/-- `decision_only_agent_ids = set(decision_steps.agent_id) - common_agent_ids`. -/
def decision_only_agent_ids (sd : ReplicaSteps) : List Nat :=
  sd.decision_ids.filter (fun agent_id => agent_id ∉ sd.terminal_ids)

/-- `terminal_only_agent_ids = set(terminal_steps.agent_id) - common_agent_ids`. -/
def terminal_only_agent_ids (sd : ReplicaSteps) : List Nat :=
  sd.terminal_ids.filter (fun agent_id => agent_id ∉ sd.decision_ids)

/-- The id-to-local-index dictionaries
`{agent_id: idx for idx, agent_id in enumerate(...agent_id)}`: agent ids
within one report are unique (Unity reports each agent at most once per
side), so the dictionary lookup is the index of the id in the array. -/
def agent_id_to_local (ids : List Nat) (agent_id : Nat) : Nat :=
  ids.indexOf agent_id

/-- The five parallel per-global-index arrays built by one `step` call. -/
structure Transitions where
  observations : List (Option Obs)
  rewards : List (Option Rat)
  terminated : List (Option Bool)
  truncated : List (Option Bool)
  final_observations : List (Option Obs)
deriving Repr, DecidableEq

/-- `UnityBackend.init_transitions` (lines 201-208): all five arrays start
as `[None] * num_agents`. -/
def init_transitions (num_agents : Nat) : Transitions :=
  { observations := List.replicate num_agents none
    rewards := List.replicate num_agents none
    terminated := List.replicate num_agents none
    truncated := List.replicate num_agents none
    final_observations := List.replicate num_agents none }

/-- Loop body for one common agent (lines 259-268): the global row gets
`final_observation = term_obs[term_local_idx]`,
`observation = dec_obs[dec_local_idx]`,
`reward = terminal_steps.reward[term_local_idx]`, `terminated = True`,
`truncated = False`. -/
def common_write (l2g : List Nat) (sd : ReplicaSteps) (t : Transitions)
    (agent_id : Nat) : Transitions :=
  let dec_local_idx := agent_id_to_local sd.decision_ids agent_id
  let term_local_idx := agent_id_to_local sd.terminal_ids agent_id
  let global_idx := l2g.getD agent_id 0
  { t with
    final_observations :=
      t.final_observations.set global_idx (some (sd.terminal_obs.getD term_local_idx []))
    observations :=
      t.observations.set global_idx (some (sd.decision_obs.getD dec_local_idx []))
    rewards := t.rewards.set global_idx (some (sd.terminal_reward.getD term_local_idx 0))
    terminated := t.terminated.set global_idx (some true)
    truncated := t.truncated.set global_idx (some false) }

/-- Loop body for one decision-only agent (lines 271-277):
`observation = dec_obs[dec_local_idx]`,
`reward = decision_steps.reward[dec_local_idx]`, `terminated = False`,
`truncated = False`; `final_observations` is not touched. -/
def decision_only_write (l2g : List Nat) (sd : ReplicaSteps) (t : Transitions)
    (agent_id : Nat) : Transitions :=
  let dec_local_idx := agent_id_to_local sd.decision_ids agent_id
  let global_idx := l2g.getD agent_id 0
  { t with
    observations :=
      t.observations.set global_idx (some (sd.decision_obs.getD dec_local_idx []))
    rewards := t.rewards.set global_idx (some (sd.decision_reward.getD dec_local_idx 0))
    terminated := t.terminated.set global_idx (some false)
    truncated := t.truncated.set global_idx (some false) }

/-- Loop body for one terminal-only agent (lines 280-286):
`observation = term_obs[local_idx]`,
`reward = terminal_steps.reward[local_idx]`, `terminated = True`,
`truncated = False`; `final_observations` is not touched. -/
def terminal_only_write (l2g : List Nat) (sd : ReplicaSteps) (t : Transitions)
    (agent_id : Nat) : Transitions :=
  let term_local_idx := agent_id_to_local sd.terminal_ids agent_id
  let global_idx := l2g.getD agent_id 0
  { t with
    observations :=
      t.observations.set global_idx (some (sd.terminal_obs.getD term_local_idx []))
    rewards := t.rewards.set global_idx (some (sd.terminal_reward.getD term_local_idx 0))
    terminated := t.terminated.set global_idx (some true)
    truncated := t.truncated.set global_idx (some false) }

/-- One replica's contribution to the tick (the body of the
`for env_idx, env in enumerate(self.envs)` collection loop): common agents
first, then decision-only, then terminal-only. -/
def collect_replica (l2g : List Nat) (sd : ReplicaSteps) (t : Transitions) : Transitions :=
  (terminal_only_agent_ids sd).foldl (terminal_only_write l2g sd)
    ((decision_only_agent_ids sd).foldl (decision_only_write l2g sd)
      ((common_agent_ids sd).foldl (common_write l2g sd) t))

/-- The collection phase of `UnityBackend.step` (lines 236-295): starting
from `init_transitions`, fold every replica's reported agents into the
global arrays, each local id mapped through `self.from_local_to_global`. -/
def step_collect (agent_per_envs : List Nat) (steps : List ReplicaSteps) : Transitions :=
  ((from_local_to_global agent_per_envs).zip steps).foldl
    (fun t p => collect_replica p.1 p.2 t)
    (init_transitions agent_per_envs.sum)

/-- The decision masks left behind by one `step` call (lines 240-241): each
replica's mask is cleared and rebuilt from its fresh `decision_steps.agent_id`. -/
def step_decision_agents (agent_per_envs : List Nat) (steps : List ReplicaSteps) :
    List (List Bool) :=
  List.zipWith (fun n_agents sd => update_decision_agents n_agents sd.decision_ids)
    agent_per_envs steps

/-- The decision masks left behind by one `reset` call (lines 187-188),
from each replica's post-reset `decision_steps.agent_id`. -/
def reset_decision_agents (agent_per_envs : List Nat) (decision_ids : List (List Nat)) :
    List (List Bool) :=
  List.zipWith update_decision_agents agent_per_envs decision_ids

/-- Well-formedness of one replica's tick report, as guaranteed by the
ML-Agents API: each side reports every local agent id at most once, and
every reported id is a live local index of the replica. -/
def ValidReplica (n_agents : Nat) (sd : ReplicaSteps) : Prop :=
  sd.decision_ids.Nodup ∧ sd.terminal_ids.Nodup ∧
  (∀ agent_id ∈ sd.decision_ids, agent_id < n_agents) ∧
  (∀ agent_id ∈ sd.terminal_ids, agent_id < n_agents)

instance (n_agents : Nat) (sd : ReplicaSteps) : Decidable (ValidReplica n_agents sd) := by
  unfold ValidReplica; infer_instance

/-- Well-formedness of one tick's reports across all replicas. -/
def ValidSteps (agent_per_envs : List Nat) (steps : List ReplicaSteps) : Prop :=
  steps.length = agent_per_envs.length ∧
  ∀ r, r < steps.length → ValidReplica (agent_per_envs.getD r 0) (steps.getD r default)

instance (agent_per_envs : List Nat) (steps : List ReplicaSteps) :
    Decidable (ValidSteps agent_per_envs steps) := by
  unfold ValidSteps
  have : ∀ r, r < steps.length →
      Decidable (ValidReplica (agent_per_envs.getD r 0) (steps.getD r default)) :=
    fun _ _ => inferInstance
  exact instDecidableAnd

end AgentGpt

namespace AgentGpt

/-! ## The concrete two-replica scenario of the specification

Two replicas, replica 0 hosting agents 0 and 1, replica 1 hosting agent 0.
On the examined tick replica 0 reports agent 0 as decision-only and agent 1
as terminal-only (with the backend flagging agent 1 as interrupted), and
replica 1 reports agent 0 on both sides (terminal with implicit reset). -/

/-- Replica 0's tick report in the concrete scenario. -/
def scenario_replica0 : ReplicaSteps :=
  { decision_ids := [0], decision_obs := [[10]], decision_reward := [1]
    terminal_ids := [1], terminal_obs := [[20]], terminal_reward := [2]
    interrupted := [true] }

/-- Replica 1's tick report in the concrete scenario. -/
def scenario_replica1 : ReplicaSteps :=
  { decision_ids := [0], decision_obs := [[30]], decision_reward := [3]
    terminal_ids := [0], terminal_obs := [[40]], terminal_reward := [4]
    interrupted := [false] }

/-! ## Helper lemmas: index map -/

/-- `buildL2G total counts` concatenates to the contiguous global range
shifted by `total`. -/
lemma buildL2G_flatten (counts : List Nat) :
    ∀ total : Nat, (buildL2G total counts).flatten =
      (List.range counts.sum).map (fun i => total + i) := by
  induction counts with
  | nil => intro total; simp [buildL2G]
  | cons n rest ih =>
      intro total
      simp only [buildL2G, List.flatten_cons, ih, List.sum_cons, List.range_add,
        List.map_append, List.map_map]
      congr 1
      ext i
      simp [Function.comp, Nat.add_assoc]

/-- Every replica's local-to-global row has exactly its agent count entries. -/
lemma buildL2G_map_length (counts : List Nat) :
    ∀ total : Nat, (buildL2G total counts).map List.length = counts := by
  induction counts with
  | nil => intro total; simp [buildL2G]
  | cons n rest ih => intro total; simp [buildL2G, ih]

/-- Looking up replica `r`, local id `a` in `buildL2G total counts` gives
`total + (sum of the first r counts) + a`. -/
lemma buildL2G_getD (counts : List Nat) :
    ∀ (r total a : Nat), r < counts.length → a < counts.getD r 0 →
      ((buildL2G total counts).getD r []).getD a 0 = total + (counts.take r).sum + a := by
  induction counts with
  | nil => intro r total a hr _; simp at hr
  | cons n rest ih =>
      intro r total a hr ha
      cases r with
      | zero =>
          simp only [buildL2G, List.getD_cons_zero, List.take_zero, List.sum_nil, Nat.add_zero]
          have ha' : a < n := by simpa using ha
          simp [List.getD_eq_getElem?_getD, List.getElem?_map, List.getElem?_range, ha']
      | succ r =>
          have hr' : r < rest.length := by simpa using hr
          have ha' : a < rest.getD r 0 := by simpa using ha
          simp only [buildL2G, List.getD_cons_succ, List.take_succ_cons, List.sum_cons]
          rw [ih r (total + n) a hr' ha']
          omega

/-- Lookup in `from_local_to_global`: replica `r`, local id `a` maps to
`env_offset agent_per_envs r + a`. -/
lemma from_local_to_global_getD (agent_per_envs : List Nat) (r a : Nat)
    (hr : r < agent_per_envs.length) (ha : a < agent_per_envs.getD r 0) :
    ((from_local_to_global agent_per_envs).getD r []).getD a 0 =
      env_offset agent_per_envs r + a := by
  unfold from_local_to_global env_offset
  rw [buildL2G_getD agent_per_envs r 0 a hr ha]
  omega

/-! ## Helper lemmas: tuple/dict dimension sums -/

/-- `sumSpaceDims` is the sum of the member dimensions. -/
lemma sumSpaceDims_eq (l : List GymSpace) :
    sumSpaceDims l = (l.map compute_space_dimension).sum := by
  induction l with
  | nil => rfl
  | cons s rest ih => simp [sumSpaceDims, ih]

/-- `sumNamedSpaceDims` is the sum of the member dimensions of the values. -/
lemma sumNamedSpaceDims_eq (l : List (String × GymSpace)) :
    sumNamedSpaceDims l = (l.map (fun p => compute_space_dimension p.2)).sum := by
  induction l with
  | nil => rfl
  | cons p rest ih => simp [sumNamedSpaceDims, ih]

/-! ## Helper lemmas: decision mask -/

/-- Folded boolean writes: the entry at `i` is `true` exactly when some id
hit it (and `i` is in range); otherwise the start mask shows through. -/
lemma foldl_set_true_getElem? (ids : List Nat) :
    ∀ (mask : List Bool) (i : Nat),
      (ids.foldl (fun mask agent_id => mask.set agent_id true) mask)[i]? =
        if i ∈ ids ∧ i < mask.length then some true else mask[i]? := by
  induction ids with
  | nil => intro mask i; simp
  | cons b ids ih =>
      intro mask i
      simp only [List.foldl_cons, ih, List.length_set]
      rw [List.getElem?_set]
      by_cases hbi : b = i
      · subst hbi
        by_cases hlt : b < mask.length
        · simp [hlt]
        · have hnone : mask[b]? = none := List.getElem?_eq_none (le_of_not_lt hlt)
          simp [hlt, hnone]
      · have hib : ¬ i = b := fun h => hbi h.symm
        simp [List.mem_cons, hib, hbi]

/-- Folded boolean writes keep the mask length. -/
lemma foldl_set_true_length (ids : List Nat) :
    ∀ mask : List Bool,
      (ids.foldl (fun mask agent_id => mask.set agent_id true) mask).length = mask.length := by
  induction ids with
  | nil => intro mask; rfl
  | cons b ids ih => intro mask; simp [ih, List.length_set]

/-- Mask length is the agent count. -/
lemma update_decision_agents_length (n_agents : Nat) (decision_ids : List Nat) :
    (update_decision_agents n_agents decision_ids).length = n_agents := by
  unfold update_decision_agents
  rw [foldl_set_true_length]
  simp

/-- In-range entries of the rebuilt mask are `true` exactly on the fresh
decision ids. -/
lemma update_decision_agents_getElem? (n_agents : Nat) (decision_ids : List Nat)
    (i : Nat) (hi : i < n_agents) :
    (update_decision_agents n_agents decision_ids)[i]? = some (decide (i ∈ decision_ids)) := by
  unfold update_decision_agents
  rw [foldl_set_true_getElem?]
  by_cases hmem : i ∈ decision_ids
  · simp [hmem, hi]
  · simp [hmem, hi]

/-- The rebuilt mask of one replica: in-range entry `i` is `true` exactly
when `i` is among the fresh decision ids. -/
lemma update_decision_agents_getD (n_agents : Nat) (decision_ids : List Nat)
    (i : Nat) (hi : i < n_agents) :
    ((update_decision_agents n_agents decision_ids).getD i false = true ↔
      i ∈ decision_ids) := by
  rw [List.getD_eq_getElem?_getD, update_decision_agents_getElem? n_agents decision_ids i hi]
  simp

/-! ## Claim C10 — decision mask rebuilt from scratch each call -/

/-- C10: after every `step` and every `reset`, the per-replica decision
mask is `true` exactly on the local ids of that replica's most recent
decision set — the mask is cleared to zeros and rebuilt on each call, so
stale entries never accumulate. -/
theorem C10_decision_mask_rebuilt (agent_per_envs : List Nat)
    (steps : List ReplicaSteps) (decision_ids : List (List Nat)) (r i : Nat)
    (hr : r < agent_per_envs.length) (hi : i < agent_per_envs.getD r 0) :
    (r < steps.length →
      (((step_decision_agents agent_per_envs steps).getD r []).getD i false = true ↔
        i ∈ (steps.getD r default).decision_ids)) ∧
    (r < decision_ids.length →
      (((reset_decision_agents agent_per_envs decision_ids).getD r []).getD i false = true ↔
        i ∈ decision_ids.getD r [])) := by
  constructor
  · intro hrs
    have hzip : r < (step_decision_agents agent_per_envs steps).length := by
      unfold step_decision_agents
      rw [List.length_zipWith]
      exact lt_min hr hrs
    rw [List.getD_eq_getElem?_getD (step_decision_agents agent_per_envs steps),
      List.getElem?_eq_getElem hzip]
    unfold step_decision_agents
    rw [List.getElem_zipWith]
    simp only [Option.getD_some]
    have h1 : agent_per_envs[r] = agent_per_envs.getD r 0 := by
      rw [List.getD_eq_getElem?_getD, List.getElem?_eq_getElem hr]; rfl
    have h2 : steps[r] = steps.getD r default := by
      rw [List.getD_eq_getElem?_getD, List.getElem?_eq_getElem hrs]; rfl
    rw [h1, h2]
    exact update_decision_agents_getD _ _ i hi
  · intro hrs
    have hzip : r < (reset_decision_agents agent_per_envs decision_ids).length := by
      unfold reset_decision_agents
      rw [List.length_zipWith]
      exact lt_min hr hrs
    rw [List.getD_eq_getElem?_getD (reset_decision_agents agent_per_envs decision_ids),
      List.getElem?_eq_getElem hzip]
    unfold reset_decision_agents
    rw [List.getElem_zipWith]
    simp only [Option.getD_some]
    have h1 : agent_per_envs[r] = agent_per_envs.getD r 0 := by
      rw [List.getD_eq_getElem?_getD, List.getElem?_eq_getElem hr]; rfl
    have h2 : decision_ids[r] = decision_ids.getD r [] := by
      rw [List.getD_eq_getElem?_getD, List.getElem?_eq_getElem hrs]; rfl
    rw [h1, h2]
    exact update_decision_agents_getD _ _ i hi

/-- C10 witness: the concrete two-replica scenario, replica 0, local id 0
(a decision agent this tick) and local id 1 (terminal-only this tick). -/
theorem C10_decision_mask_rebuilt_witness :
    (0 < ([2, 1] : List Nat).length ∧ 0 < ([2, 1] : List Nat).getD 0 0 ∧
      1 < ([2, 1] : List Nat).getD 0 0) ∧
    (((step_decision_agents [2, 1] [scenario_replica0, scenario_replica1]).getD 0 []).getD 0
        false = true ↔
      0 ∈ (([scenario_replica0, scenario_replica1] :
        List ReplicaSteps).getD 0 default).decision_ids) ∧
    (((step_decision_agents [2, 1] [scenario_replica0, scenario_replica1]).getD 0 []).getD 1
        false = true ↔
      1 ∈ (([scenario_replica0, scenario_replica1] :
        List ReplicaSteps).getD 0 default).decision_ids) :=
  ⟨by decide,
    (C10_decision_mask_rebuilt [2, 1] [scenario_replica0, scenario_replica1] [[0], [0]] 0 0
      (by decide) (by decide)).1 (by decide),
    (C10_decision_mask_rebuilt [2, 1] [scenario_replica0, scenario_replica1] [[0], [0]] 0 1
      (by decide) (by decide)).1 (by decide)⟩

/-! ## Helper lemmas: action dispatch -/

/-- Boolean-mask selection, cons step. -/
lemma mask_select_cons {α : Type} (x : α) (xs : List α) (b : Bool) (mask : List Bool) :
    mask_select (x :: xs) (b :: mask) =
      if b then x :: mask_select xs mask else mask_select xs mask := by
  by_cases hb : b
  · simp [mask_select, hb, List.filterMap_cons]
  · simp [mask_select, hb, List.filterMap_cons]

/-- Boolean-mask selection keeps exactly the positions whose mask entry is
`true`, in increasing position order. -/
lemma mask_select_spec {α : Type} (d : α) :
    ∀ (xs : List α) (mask : List Bool), xs.length = mask.length →
      mask_select xs mask =
        ((List.range xs.length).filter (fun i => mask.getD i false)).map
          (fun i => xs.getD i d) := by
  intro xs
  induction xs with
  | nil => intro mask _; simp [mask_select]
  | cons x xs ih =>
      intro mask h
      cases mask with
      | nil => simp at h
      | cons b m =>
          have hlen : xs.length = m.length := by simpa using h
          have hp : ((fun i => (b :: m).getD i false) ∘ Nat.succ) =
              (fun i => m.getD i false) := by
            funext i; simp [List.getD_cons_succ]
          have hq : ((fun i => (x :: xs).getD i d) ∘ Nat.succ) = (fun i => xs.getD i d) := by
            funext i; simp [List.getD_cons_succ]
          rw [mask_select_cons, List.length_cons, List.range_succ_eq_map, List.filter_cons,
            List.filter_map, hp]
          cases b with
          | false =>
              simp only [List.getD_cons_zero, Bool.false_eq_true, if_false, List.map_map, hq]
              exact ih m hlen
          | true =>
              simp only [List.getD_cons_zero, if_true, List.map_cons, List.map_map, hq]
              rw [ih m hlen]

/-- Reading inside the per-replica action slice
`actions[action_offset : action_offset + n]`. -/
lemma getD_drop_take {α : Type} (actions : List α) (off n i : Nat) (d : α)
    (hi : i < n) :
    ((actions.drop off).take n).getD i d = actions.getD (off + i) d := by
  rw [List.getD_eq_getElem?_getD, List.getD_eq_getElem?_getD, List.getElem?_take,
    if_pos hi, List.getElem?_drop]

/-- Length of the per-replica action slice. -/
lemma length_drop_take {α : Type} (actions : List α) (off n : Nat)
    (hn : off + n ≤ actions.length) :
    ((actions.drop off).take n).length = n := by
  rw [List.length_take, List.length_drop]
  omega

/-- The replica slice starts at the sum of the preceding agent counts. -/
lemma env_offset_add_getD_le (agent_per_envs : List Nat) (r : Nat)
    (hr : r < agent_per_envs.length) :
    env_offset agent_per_envs r + agent_per_envs.getD r 0 ≤ agent_per_envs.sum := by
  have hsum : (agent_per_envs.take r).sum + (agent_per_envs.drop r).sum =
      agent_per_envs.sum := List.sum_take_add_sum_drop agent_per_envs r
  have hdrop : agent_per_envs.drop r = agent_per_envs[r] :: agent_per_envs.drop (r + 1) :=
    List.drop_eq_getElem_cons hr
  have hgetD : agent_per_envs.getD r 0 = agent_per_envs[r] := by
    rw [List.getD_eq_getElem?_getD, List.getElem?_eq_getElem hr]; rfl
  rw [env_offset, hgetD]
  rw [hdrop] at hsum
  simp only [List.sum_cons] at hsum
  omega

/-- `dispatchFrom` at replica position `r`: the slice starts at the base
offset plus the agent counts of the replicas before `r`. -/
lemma dispatchFrom_getElem? {α : Type} (actions : List α) :
    ∀ (ps : List (Nat × List Bool)) (off r : Nat), r < ps.length →
      (dispatchFrom actions off ps)[r]? =
        some (mask_select
          ((actions.drop (off + ((ps.take r).map Prod.fst).sum)).take (ps.getD r default).1)
          (ps.getD r default).2) := by
  intro ps
  induction ps with
  | nil => intro off r hr; simp at hr
  | cons p rest ih =>
      obtain ⟨n, mask⟩ := p
      intro off r hr
      cases r with
      | zero => simp [dispatchFrom]
      | succ r =>
          have hr' : r < rest.length := by simpa using hr
          simp only [dispatchFrom, List.getElem?_cons_succ, List.getD_cons_succ,
            List.take_succ_cons, List.map_cons, List.sum_cons]
          rw [ih (off + n) r hr']
          have harith : off + n + ((rest.take r).map Prod.fst).sum =
              off + (n + ((rest.take r).map Prod.fst).sum) := by omega
          rw [harith]

/-! ## Claim C6 — per-replica action dispatch -/

/-- C6: when the per-replica decision masks are the ones rebuilt from the
previous call's decision ids, a `step` call hands replica `r` exactly the
action rows at the global indices of its previous decision agents
(`env_offset r + local id`, local ids in increasing order); a local id not
in the previous decision set — in particular an agent that was
terminal-only on the previous tick — contributes no action. -/
theorem C6_action_dispatch {α : Type} (d : α) (actions : List α)
    (agent_per_envs : List Nat) (prev_decision_ids : List (List Nat))
    (decision_agents : List (List Bool)) (r : Nat)
    (hmask : decision_agents =
      List.zipWith update_decision_agents agent_per_envs prev_decision_ids)
    (hlen : prev_decision_ids.length = agent_per_envs.length)
    (hact : agent_per_envs.sum ≤ actions.length)
    (hr : r < agent_per_envs.length)
    (hids : ∀ a ∈ prev_decision_ids.getD r [], a < agent_per_envs.getD r 0) :
    (dispatch_actions actions agent_per_envs decision_agents)[r]? =
      some (((List.range (agent_per_envs.getD r 0)).filter
          (fun a => decide (a ∈ prev_decision_ids.getD r []))).map
        (fun a => actions.getD (env_offset agent_per_envs r + a) d)) := by
  subst hmask
  have hmlen : (List.zipWith update_decision_agents agent_per_envs prev_decision_ids).length =
      agent_per_envs.length := by
    rw [List.length_zipWith, hlen, min_self]
  have hzlen : (agent_per_envs.zip
      (List.zipWith update_decision_agents agent_per_envs prev_decision_ids)).length =
      agent_per_envs.length := by
    rw [List.length_zip, hmlen, min_self]
  have hrz : r < (agent_per_envs.zip
      (List.zipWith update_decision_agents agent_per_envs prev_decision_ids)).length := by omega
  have hrm : r < (List.zipWith update_decision_agents agent_per_envs prev_decision_ids).length := by
    omega
  have hrp : r < prev_decision_ids.length := by omega
  have h1 : agent_per_envs[r] = agent_per_envs.getD r 0 := by
    rw [List.getD_eq_getElem?_getD, List.getElem?_eq_getElem hr]; rfl
  have h3 : prev_decision_ids[r] = prev_decision_ids.getD r [] := by
    rw [List.getD_eq_getElem?_getD, List.getElem?_eq_getElem hrp]; rfl
  unfold dispatch_actions
  rw [dispatchFrom_getElem? actions _ 0 r hrz]
  have hzr : ((agent_per_envs.zip
        (List.zipWith update_decision_agents agent_per_envs prev_decision_ids)).getD r
        default) =
      (agent_per_envs.getD r 0,
        update_decision_agents (agent_per_envs.getD r 0) (prev_decision_ids.getD r [])) := by
    rw [List.getD_eq_getElem?_getD, List.getElem?_eq_getElem hrz, Option.getD_some,
      List.getElem_zip, List.getElem_zipWith, h1, h3]
  have hoff : (((agent_per_envs.zip
        (List.zipWith update_decision_agents agent_per_envs prev_decision_ids)).take r).map
        Prod.fst) = agent_per_envs.take r := by
    rw [List.map_take, List.map_fst_zip agent_per_envs _ (by omega)]
  rw [hzr, hoff, Nat.zero_add]
  have hbound : (agent_per_envs.take r).sum + agent_per_envs.getD r 0 ≤ actions.length := by
    have := env_offset_add_getD_le agent_per_envs r hr
    rw [env_offset] at this
    omega
  have hxlen : ((actions.drop ((agent_per_envs.take r).sum)).take
      (agent_per_envs.getD r 0)).length = agent_per_envs.getD r 0 :=
    length_drop_take actions _ _ hbound
  have hmlen2 : (update_decision_agents (agent_per_envs.getD r 0)
      (prev_decision_ids.getD r [])).length = agent_per_envs.getD r 0 :=
    update_decision_agents_length _ _
  rw [mask_select_spec d _ _ (by rw [hxlen, hmlen2])]
  rw [hxlen]
  congr 1
  rw [List.filter_congr (fun i hi => ?_)]
  · refine List.map_congr_left (fun i hi => ?_)
    have hilt : i < agent_per_envs.getD r 0 := List.mem_range.1 (List.mem_filter.1 hi).1
    rw [getD_drop_take actions _ _ _ _ hilt, env_offset]
  · have hilt : i < agent_per_envs.getD r 0 := List.mem_range.1 hi
    rw [Bool.eq_iff_iff, decide_eq_true_eq]
    exact update_decision_agents_getD _ _ i hilt

/-- C6 witness: three global actions, counts `[2,1]`, previous decision
ids `[[0],[0]]`, replica 1: it receives exactly the action at global index
2 (`env_offset [2,1] 1 + 0`). -/
theorem C6_action_dispatch_witness :
    ((List.zipWith update_decision_agents [2, 1] [[0], [0]] =
        List.zipWith update_decision_agents [2, 1] [[0], [0]]) ∧
      ([[0], [0]] : List (List Nat)).length = ([2, 1] : List Nat).length ∧
      ([2, 1] : List Nat).sum ≤ ([5, 6, 7] : List Rat).length ∧
      1 < ([2, 1] : List Nat).length ∧
      (∀ a ∈ ([[0], [0]] : List (List Nat)).getD 1 [], a < ([2, 1] : List Nat).getD 1 0)) ∧
    (dispatch_actions ([5, 6, 7] : List Rat) [2, 1]
        (List.zipWith update_decision_agents [2, 1] [[0], [0]]))[1]? =
      some (((List.range (([2, 1] : List Nat).getD 1 0)).filter
          (fun a => decide (a ∈ ([[0], [0]] : List (List Nat)).getD 1 []))).map
        (fun a => ([5, 6, 7] : List Rat).getD (env_offset [2, 1] 1 + a) 0)) :=
  ⟨⟨rfl, by decide, by decide, by decide, by decide⟩,
    C6_action_dispatch (0 : Rat) ([5, 6, 7] : List Rat) [2, 1] [[0], [0]]
      (List.zipWith update_decision_agents [2, 1] [[0], [0]]) 1 rfl
      (by decide) (by decide) (by decide) (by decide)⟩

/-! ## Helper lemmas: observation aggregation -/

/-- Writing a slice never changes the row width. -/
lemma setSlice_length : ∀ (vals row : List Rat) (offset : Nat),
    (setSlice row offset vals).length = row.length := by
  intro vals
  induction vals with
  | nil => intro row offset; rfl
  | cons v vs ih => intro row offset; rw [setSlice, ih, List.length_set]

/-- `mapIdx` preserves a pointwise property that holds for every index. -/
lemma mapIdx_forall_mem {α β : Type} (P : β → Prop) :
    ∀ (f : Nat → α → β) (l : List α), (∀ a ∈ l, ∀ i, P (f i a)) →
      ∀ b ∈ l.mapIdx f, P b := by
  intro f l
  induction l generalizing f with
  | nil => intro _ b hb; simp at hb
  | cons a l ih =>
      intro h b hb
      rw [List.mapIdx_cons] at hb
      rcases List.mem_cons.1 hb with hb | hb
      · rw [hb]; exact h a (List.mem_cons_self a l) 0
      · exact ih (fun i => f (i + 1)) (fun x hx i => h x (List.mem_cons_of_mem a hx) (i + 1)) b hb

/-- One component write keeps the matrix row count. -/
lemma write_component_length (aggregated : List (List Rat)) (offset size : Nat)
    (obs : List (List Rat)) :
    (write_component aggregated offset size obs).length = aggregated.length := by
  unfold write_component
  exact List.length_mapIdx

/-- One component write keeps every row width. -/
lemma write_component_rows (aggregated : List (List Rat)) (offset size : Nat)
    (obs : List (List Rat)) (w : Nat) (h : ∀ row ∈ aggregated, row.length = w) :
    ∀ row ∈ write_component aggregated offset size obs, row.length = w := by
  unfold write_component
  refine mapIdx_forall_mem (fun (row : List Rat) => row.length = w) _ aggregated
    (fun row hrow i => ?_)
  show (setSlice row offset ((obs.getD i []).take size)).length = w
  rw [setSlice_length]
  exact h row hrow

/-- The component fold of `aggregate_observations` keeps the matrix shape. -/
lemma aggregate_fold_shape (n w : Nat) :
    ∀ (ps : List (List (List Rat) × List Nat)) (st : List (List Rat) × Nat),
      st.1.length = n → (∀ row ∈ st.1, row.length = w) →
      ((ps.foldl (fun (st : List (List Rat) × Nat) p =>
          (write_component st.1 st.2 p.2.prod p.1, st.2 + p.2.prod)) st).1.length = n ∧
        ∀ row ∈ (ps.foldl (fun (st : List (List Rat) × Nat) p =>
          (write_component st.1 st.2 p.2.prod p.1, st.2 + p.2.prod)) st).1,
          row.length = w) := by
  intro ps
  induction ps with
  | nil => intro st h1 h2; exact ⟨h1, h2⟩
  | cons p rest ih =>
      intro st h1 h2
      rw [List.foldl_cons]
      refine ih _ ?_ ?_
      · rw [write_component_length]; exact h1
      · exact write_component_rows _ _ _ _ w h2

/-! ## Claim C7 — aggregation output shape -/

/-- C7: for a non-empty ordered list of per-agent component arrays, the
aggregated output has one row per agent of the first component
(`len(observations[0])`) and every row has exactly the combined width
`sum(prod(shape))` over the registered component shapes; in particular
zero agents yield a 0-row matrix of that width, not an error. -/
theorem C7_aggregation_shape (observation_shapes : List (List Nat))
    (observations : List (List (List Rat))) (hne : observations ≠ []) :
    (aggregate_observations observation_shapes observations).length =
      (observations.headD []).length ∧
    ∀ row ∈ aggregate_observations observation_shapes observations,
      row.length = (observation_shapes.map (fun shape => shape.prod)).sum := by
  clear hne
  unfold aggregate_observations
  set n := (observations.headD []).length with hn
  set w := (observation_shapes.map (fun shape => shape.prod)).sum with hw
  by_cases hz : n < 1
  · rw [if_pos hz]
    refine ⟨List.length_replicate _ _, fun row hrow => ?_⟩
    rw [List.eq_of_mem_replicate hrow]
    exact List.length_replicate _ _
  · rw [if_neg hz]
    refine aggregate_fold_shape n w _ _ (List.length_replicate _ _) (fun row hrow => ?_)
    rw [List.eq_of_mem_replicate hrow]
    exact List.length_replicate _ _

/-- C7 witness: a two-component call (widths 2 and 3) with two agents, and
the same call with zero agents. -/
theorem C7_aggregation_shape_witness :
    (([[[1, 2], [3, 4]], [[5, 6, 7], [8, 9, 10]]] : List (List (List Rat))) ≠ [] ∧
      (aggregate_observations [[2], [3]]
          [[[1, 2], [3, 4]], [[5, 6, 7], [8, 9, 10]]]).length = 2 ∧
      ∀ row ∈ aggregate_observations [[2], [3]] [[[1, 2], [3, 4]], [[5, 6, 7], [8, 9, 10]]],
        row.length = 5) ∧
    (([[], []] : List (List (List Rat))) ≠ [] ∧
      (aggregate_observations [[2], [3]] [[], []]).length = 0) := by
  constructor
  · refine ⟨by decide, ?_⟩
    have h := C7_aggregation_shape [[2], [3]] [[[1, 2], [3, 4]], [[5, 6, 7], [8, 9, 10]]]
      (by decide)
    simpa using h
  · refine ⟨by decide, ?_⟩
    have h := C7_aggregation_shape [[2], [3]] ([[], []] : List (List (List Rat))) (by decide)
    simpa using h.1

/-! ## Helper apparatus: sequences of indexed array writes

`UnityBackend.step` fills its five `[None] * num_agents` arrays by a
sequence of single-cell writes `arr[global_idx] = value`.  Each array's
final content is the fold of its write list. -/

/-- Apply a list of `(index, value)` writes left to right. -/
def applyWrites {β : Type} (ws : List (Nat × β)) (init : List β) : List β :=
  ws.foldl (fun acc w => acc.set w.1 w.2) init

lemma applyWrites_nil {β : Type} (init : List β) : applyWrites [] init = init := rfl

lemma applyWrites_cons {β : Type} (w : Nat × β) (ws : List (Nat × β)) (init : List β) :
    applyWrites (w :: ws) init = applyWrites ws (init.set w.1 w.2) := rfl

lemma applyWrites_append {β : Type} (ws₁ ws₂ : List (Nat × β)) (init : List β) :
    applyWrites (ws₁ ++ ws₂) init = applyWrites ws₂ (applyWrites ws₁ init) :=
  List.foldl_append _ _ _ _

lemma applyWrites_length {β : Type} (ws : List (Nat × β)) :
    ∀ init : List β, (applyWrites ws init).length = init.length := by
  induction ws with
  | nil => intro init; rfl
  | cons w ws ih => intro init; rw [applyWrites_cons, ih, List.length_set]

/-- A cell no write targets keeps its initial content. -/
lemma applyWrites_getElem?_not_mem {β : Type} (ws : List (Nat × β)) :
    ∀ (init : List β) (j : Nat), (∀ w ∈ ws, w.1 ≠ j) →
      (applyWrites ws init)[j]? = init[j]? := by
  induction ws with
  | nil => intro init j _; rfl
  | cons w ws ih =>
      intro init j h
      rw [applyWrites_cons, ih _ j (fun v hv => h v (List.mem_cons_of_mem w hv)),
        List.getElem?_set_ne (h w (List.mem_cons_self w ws))]

/-- When the write indices are pairwise distinct, a written cell holds
exactly its write's value. -/
lemma applyWrites_getElem?_mem {β : Type} (ws : List (Nat × β)) :
    ∀ (init : List β) (w : Nat × β), (ws.map Prod.fst).Nodup → w ∈ ws →
      w.1 < init.length → (applyWrites ws init)[w.1]? = some w.2 := by
  induction ws with
  | nil => intro init w _ hw _; simp at hw
  | cons u ws ih =>
      intro init w hnd hw hlt
      rw [List.map_cons, List.nodup_cons] at hnd
      rw [applyWrites_cons]
      rcases List.mem_cons.1 hw with hw | hw
      · subst hw
        rw [applyWrites_getElem?_not_mem ws _ w.1
            (fun v hv hvw => hnd.1 (hvw ▸ List.mem_map_of_mem Prod.fst hv)),
          List.getElem?_set_self hlt]
      · exact ih _ w hnd.2 hw (by rw [List.length_set]; exact hlt)

/-! ## Helper apparatus: projecting the reconciliation folds to write lists -/

/-- Fold projection: if a loop body writes `proj` at cell `(wf a).1` with
value `(wf a).2`, the whole fold projects to `applyWrites` of the mapped
write list. -/
lemma foldl_write_proj {τ : Type} (W : Transitions → Nat → Transitions)
    (proj : Transitions → List τ) (wf : Nat → Nat × τ)
    (hW : ∀ t a, proj (W t a) = (proj t).set (wf a).1 (wf a).2) :
    ∀ (l : List Nat) (t : Transitions),
      proj (l.foldl W t) = applyWrites (l.map wf) (proj t) := by
  intro l
  induction l with
  | nil => intro t; rfl
  | cons a l ih => intro t; rw [List.foldl_cons, ih, List.map_cons, applyWrites_cons, hW]

/-- Fold projection for a field the loop body leaves unchanged. -/
lemma foldl_keep_proj {τ : Type} (W : Transitions → Nat → Transitions)
    (proj : Transitions → List τ) (hW : ∀ t a, proj (W t a) = proj t) :
    ∀ (l : List Nat) (t : Transitions), proj (l.foldl W t) = proj t := by
  intro l
  induction l with
  | nil => intro t; rfl
  | cons a l ih => intro t; rw [List.foldl_cons, ih, hW]

/-- Top-level projection: if every replica's collection step projects to
`applyWrites` of its per-replica write list, the whole replica fold
projects to the flattened write list. -/
lemma foldl_collect_proj {τ : Type} (proj : Transitions → List τ)
    (fw : List Nat → ReplicaSteps → List (Nat × τ))
    (h : ∀ l2g sd t, proj (collect_replica l2g sd t) = applyWrites (fw l2g sd) (proj t)) :
    ∀ (ps : List (List Nat × ReplicaSteps)) (t : Transitions),
      proj (ps.foldl (fun t p => collect_replica p.1 p.2 t) t) =
        applyWrites ((ps.map (fun p => fw p.1 p.2)).flatten) (proj t) := by
  intro ps
  induction ps with
  | nil => intro t; rfl
  | cons p ps ih =>
      intro t
      rw [List.foldl_cons, ih, List.map_cons, List.flatten_cons, applyWrites_append, h]

/-! ## Per-replica write lists of the five arrays -/

/-- The decision-side observation row of agent `agent_id`
(`dec_obs[decision_agent_id_to_local[agent_id]]`). -/
def dec_obs_of (sd : ReplicaSteps) (agent_id : Nat) : Option Obs :=
  some (sd.decision_obs.getD (agent_id_to_local sd.decision_ids agent_id) [])

/-- The terminal-side observation row of agent `agent_id`
(`term_obs[terminal_agent_id_to_local[agent_id]]`). -/
def term_obs_of (sd : ReplicaSteps) (agent_id : Nat) : Option Obs :=
  some (sd.terminal_obs.getD (agent_id_to_local sd.terminal_ids agent_id) [])

/-- The decision-side reward of agent `agent_id`. -/
def dec_reward_of (sd : ReplicaSteps) (agent_id : Nat) : Option Rat :=
  some (sd.decision_reward.getD (agent_id_to_local sd.decision_ids agent_id) 0)

/-- The terminal-side reward of agent `agent_id`. -/
def term_reward_of (sd : ReplicaSteps) (agent_id : Nat) : Option Rat :=
  some (sd.terminal_reward.getD (agent_id_to_local sd.terminal_ids agent_id) 0)

/-- The `observations` writes of one replica, in loop order. -/
def observation_writes (l2g : List Nat) (sd : ReplicaSteps) : List (Nat × Option Obs) :=
  (common_agent_ids sd).map (fun a => (l2g.getD a 0, dec_obs_of sd a)) ++
  ((decision_only_agent_ids sd).map (fun a => (l2g.getD a 0, dec_obs_of sd a)) ++
    (terminal_only_agent_ids sd).map (fun a => (l2g.getD a 0, term_obs_of sd a)))

/-- The `rewards` writes of one replica, in loop order. -/
def reward_writes (l2g : List Nat) (sd : ReplicaSteps) : List (Nat × Option Rat) :=
  (common_agent_ids sd).map (fun a => (l2g.getD a 0, term_reward_of sd a)) ++
  ((decision_only_agent_ids sd).map (fun a => (l2g.getD a 0, dec_reward_of sd a)) ++
    (terminal_only_agent_ids sd).map (fun a => (l2g.getD a 0, term_reward_of sd a)))

/-- The `terminated` writes of one replica, in loop order. -/
def terminated_writes (l2g : List Nat) (sd : ReplicaSteps) : List (Nat × Option Bool) :=
  (common_agent_ids sd).map (fun a => (l2g.getD a 0, some true)) ++
  ((decision_only_agent_ids sd).map (fun a => (l2g.getD a 0, some false)) ++
    (terminal_only_agent_ids sd).map (fun a => (l2g.getD a 0, some true)))

/-- The `truncated` writes of one replica, in loop order: every category
writes `False`. -/
def truncated_writes (l2g : List Nat) (sd : ReplicaSteps) : List (Nat × Option Bool) :=
  (common_agent_ids sd).map (fun a => (l2g.getD a 0, some false)) ++
  ((decision_only_agent_ids sd).map (fun a => (l2g.getD a 0, some false)) ++
    (terminal_only_agent_ids sd).map (fun a => (l2g.getD a 0, some false)))

/-- The `final_observations` writes of one replica: only the common loop
writes this array. -/
def final_writes (l2g : List Nat) (sd : ReplicaSteps) : List (Nat × Option Obs) :=
  (common_agent_ids sd).map (fun a => (l2g.getD a 0, term_obs_of sd a))

lemma collect_replica_observations (l2g : List Nat) (sd : ReplicaSteps) (t : Transitions) :
    (collect_replica l2g sd t).observations =
      applyWrites (observation_writes l2g sd) t.observations := by
  unfold collect_replica observation_writes
  rw [applyWrites_append, applyWrites_append,
    foldl_write_proj (terminal_only_write l2g sd) (fun t => t.observations)
      (fun a => (l2g.getD a 0, term_obs_of sd a)) (fun t a => rfl),
    foldl_write_proj (decision_only_write l2g sd) (fun t => t.observations)
      (fun a => (l2g.getD a 0, dec_obs_of sd a)) (fun t a => rfl),
    foldl_write_proj (common_write l2g sd) (fun t => t.observations)
      (fun a => (l2g.getD a 0, dec_obs_of sd a)) (fun t a => rfl)]

lemma collect_replica_rewards (l2g : List Nat) (sd : ReplicaSteps) (t : Transitions) :
    (collect_replica l2g sd t).rewards = applyWrites (reward_writes l2g sd) t.rewards := by
  unfold collect_replica reward_writes
  rw [applyWrites_append, applyWrites_append,
    foldl_write_proj (terminal_only_write l2g sd) (fun t => t.rewards)
      (fun a => (l2g.getD a 0, term_reward_of sd a)) (fun t a => rfl),
    foldl_write_proj (decision_only_write l2g sd) (fun t => t.rewards)
      (fun a => (l2g.getD a 0, dec_reward_of sd a)) (fun t a => rfl),
    foldl_write_proj (common_write l2g sd) (fun t => t.rewards)
      (fun a => (l2g.getD a 0, term_reward_of sd a)) (fun t a => rfl)]

lemma collect_replica_terminated (l2g : List Nat) (sd : ReplicaSteps) (t : Transitions) :
    (collect_replica l2g sd t).terminated =
      applyWrites (terminated_writes l2g sd) t.terminated := by
  unfold collect_replica terminated_writes
  rw [applyWrites_append, applyWrites_append,
    foldl_write_proj (terminal_only_write l2g sd) (fun t => t.terminated)
      (fun a => (l2g.getD a 0, some true)) (fun t a => rfl),
    foldl_write_proj (decision_only_write l2g sd) (fun t => t.terminated)
      (fun a => (l2g.getD a 0, some false)) (fun t a => rfl),
    foldl_write_proj (common_write l2g sd) (fun t => t.terminated)
      (fun a => (l2g.getD a 0, some true)) (fun t a => rfl)]

lemma collect_replica_truncated (l2g : List Nat) (sd : ReplicaSteps) (t : Transitions) :
    (collect_replica l2g sd t).truncated =
      applyWrites (truncated_writes l2g sd) t.truncated := by
  unfold collect_replica truncated_writes
  rw [applyWrites_append, applyWrites_append,
    foldl_write_proj (terminal_only_write l2g sd) (fun t => t.truncated)
      (fun a => (l2g.getD a 0, some false)) (fun t a => rfl),
    foldl_write_proj (decision_only_write l2g sd) (fun t => t.truncated)
      (fun a => (l2g.getD a 0, some false)) (fun t a => rfl),
    foldl_write_proj (common_write l2g sd) (fun t => t.truncated)
      (fun a => (l2g.getD a 0, some false)) (fun t a => rfl)]

lemma collect_replica_final (l2g : List Nat) (sd : ReplicaSteps) (t : Transitions) :
    (collect_replica l2g sd t).final_observations =
      applyWrites (final_writes l2g sd) t.final_observations := by
  unfold collect_replica final_writes
  rw [foldl_keep_proj (terminal_only_write l2g sd) (fun t => t.final_observations)
      (fun t a => rfl),
    foldl_keep_proj (decision_only_write l2g sd) (fun t => t.final_observations)
      (fun t a => rfl),
    foldl_write_proj (common_write l2g sd) (fun t => t.final_observations)
      (fun a => (l2g.getD a 0, term_obs_of sd a)) (fun t a => rfl)]

/-! ## Whole-step write lists -/

/-- All `observations` writes of one `step` call, replica-major. -/
def step_observation_writes (agent_per_envs : List Nat) (steps : List ReplicaSteps) :
    List (Nat × Option Obs) :=
  (((from_local_to_global agent_per_envs).zip steps).map
    (fun p => observation_writes p.1 p.2)).flatten

/-- All `rewards` writes of one `step` call, replica-major. -/
def step_reward_writes (agent_per_envs : List Nat) (steps : List ReplicaSteps) :
    List (Nat × Option Rat) :=
  (((from_local_to_global agent_per_envs).zip steps).map
    (fun p => reward_writes p.1 p.2)).flatten

/-- All `terminated` writes of one `step` call, replica-major. -/
def step_terminated_writes (agent_per_envs : List Nat) (steps : List ReplicaSteps) :
    List (Nat × Option Bool) :=
  (((from_local_to_global agent_per_envs).zip steps).map
    (fun p => terminated_writes p.1 p.2)).flatten

/-- All `truncated` writes of one `step` call, replica-major. -/
def step_truncated_writes (agent_per_envs : List Nat) (steps : List ReplicaSteps) :
    List (Nat × Option Bool) :=
  (((from_local_to_global agent_per_envs).zip steps).map
    (fun p => truncated_writes p.1 p.2)).flatten

/-- All `final_observations` writes of one `step` call, replica-major. -/
def step_final_writes (agent_per_envs : List Nat) (steps : List ReplicaSteps) :
    List (Nat × Option Obs) :=
  (((from_local_to_global agent_per_envs).zip steps).map
    (fun p => final_writes p.1 p.2)).flatten

lemma step_collect_observations (agent_per_envs : List Nat) (steps : List ReplicaSteps) :
    (step_collect agent_per_envs steps).observations =
      applyWrites (step_observation_writes agent_per_envs steps)
        (List.replicate agent_per_envs.sum none) := by
  unfold step_collect step_observation_writes
  rw [foldl_collect_proj (fun t => t.observations) observation_writes
    collect_replica_observations]
  rfl

lemma step_collect_rewards (agent_per_envs : List Nat) (steps : List ReplicaSteps) :
    (step_collect agent_per_envs steps).rewards =
      applyWrites (step_reward_writes agent_per_envs steps)
        (List.replicate agent_per_envs.sum none) := by
  unfold step_collect step_reward_writes
  rw [foldl_collect_proj (fun t => t.rewards) reward_writes collect_replica_rewards]
  rfl

lemma step_collect_terminated (agent_per_envs : List Nat) (steps : List ReplicaSteps) :
    (step_collect agent_per_envs steps).terminated =
      applyWrites (step_terminated_writes agent_per_envs steps)
        (List.replicate agent_per_envs.sum none) := by
  unfold step_collect step_terminated_writes
  rw [foldl_collect_proj (fun t => t.terminated) terminated_writes collect_replica_terminated]
  rfl

lemma step_collect_truncated (agent_per_envs : List Nat) (steps : List ReplicaSteps) :
    (step_collect agent_per_envs steps).truncated =
      applyWrites (step_truncated_writes agent_per_envs steps)
        (List.replicate agent_per_envs.sum none) := by
  unfold step_collect step_truncated_writes
  rw [foldl_collect_proj (fun t => t.truncated) truncated_writes collect_replica_truncated]
  rfl

lemma step_collect_final (agent_per_envs : List Nat) (steps : List ReplicaSteps) :
    (step_collect agent_per_envs steps).final_observations =
      applyWrites (step_final_writes agent_per_envs steps)
        (List.replicate agent_per_envs.sum none) := by
  unfold step_collect step_final_writes
  rw [foldl_collect_proj (fun t => t.final_observations) final_writes collect_replica_final]
  rfl

/-! ## The global indices targeted by the write lists -/

/-- All local ids a replica reports this tick, category-ordered as the
loops visit them. -/
def touched_ids (sd : ReplicaSteps) : List Nat :=
  common_agent_ids sd ++ (decision_only_agent_ids sd ++ terminal_only_agent_ids sd)

lemma mem_common_agent_ids (sd : ReplicaSteps) (a : Nat) :
    a ∈ common_agent_ids sd ↔ a ∈ sd.decision_ids ∧ a ∈ sd.terminal_ids := by
  simp [common_agent_ids]

lemma mem_decision_only_agent_ids (sd : ReplicaSteps) (a : Nat) :
    a ∈ decision_only_agent_ids sd ↔ a ∈ sd.decision_ids ∧ a ∉ sd.terminal_ids := by
  simp [decision_only_agent_ids]

lemma mem_terminal_only_agent_ids (sd : ReplicaSteps) (a : Nat) :
    a ∈ terminal_only_agent_ids sd ↔ a ∈ sd.terminal_ids ∧ a ∉ sd.decision_ids := by
  simp [terminal_only_agent_ids]

lemma mem_touched_ids (sd : ReplicaSteps) (a : Nat) :
    a ∈ touched_ids sd ↔ a ∈ sd.decision_ids ∨ a ∈ sd.terminal_ids := by
  simp only [touched_ids, List.mem_append, mem_common_agent_ids,
    mem_decision_only_agent_ids, mem_terminal_only_agent_ids]
  by_cases hd : a ∈ sd.decision_ids <;> by_cases ht : a ∈ sd.terminal_ids <;>
    simp [hd, ht]

/-- The three categories are pairwise disjoint, so the per-replica visit
list has no duplicate local id. -/
lemma touched_ids_nodup (sd : ReplicaSteps) (hd : sd.decision_ids.Nodup)
    (ht : sd.terminal_ids.Nodup) : (touched_ids sd).Nodup := by
  refine List.Nodup.append (List.Nodup.filter _ hd)
    (List.Nodup.append (List.Nodup.filter _ hd) (List.Nodup.filter _ ht) ?_) ?_
  · intro a hdo hto
    rw [mem_decision_only_agent_ids] at hdo
    rw [mem_terminal_only_agent_ids] at hto
    exact hdo.2 hto.1
  · intro a hc h2
    rw [mem_common_agent_ids] at hc
    rcases List.mem_append.1 h2 with hdo | hto
    · rw [mem_decision_only_agent_ids] at hdo
      exact hdo.2 hc.2
    · rw [mem_terminal_only_agent_ids] at hto
      exact hto.2 hc.1

lemma touched_ids_lt (sd : ReplicaSteps) (n : Nat) (h : ValidReplica n sd) :
    ∀ a ∈ touched_ids sd, a < n := by
  intro a ha
  rcases (mem_touched_ids sd a).1 ha with hd | ht
  · exact h.2.2.1 a hd
  · exact h.2.2.2 a ht

lemma observation_writes_map_fst (l2g : List Nat) (sd : ReplicaSteps) :
    (observation_writes l2g sd).map Prod.fst =
      (touched_ids sd).map (fun a => l2g.getD a 0) := by
  simp [observation_writes, touched_ids, List.map_map, Function.comp_def]

lemma reward_writes_map_fst (l2g : List Nat) (sd : ReplicaSteps) :
    (reward_writes l2g sd).map Prod.fst = (touched_ids sd).map (fun a => l2g.getD a 0) := by
  simp [reward_writes, touched_ids, List.map_map, Function.comp_def]

lemma terminated_writes_map_fst (l2g : List Nat) (sd : ReplicaSteps) :
    (terminated_writes l2g sd).map Prod.fst =
      (touched_ids sd).map (fun a => l2g.getD a 0) := by
  simp [terminated_writes, touched_ids, List.map_map, Function.comp_def]

lemma truncated_writes_map_fst (l2g : List Nat) (sd : ReplicaSteps) :
    (truncated_writes l2g sd).map Prod.fst =
      (touched_ids sd).map (fun a => l2g.getD a 0) := by
  simp [truncated_writes, touched_ids, List.map_map, Function.comp_def]

lemma final_writes_map_fst (l2g : List Nat) (sd : ReplicaSteps) :
    (final_writes l2g sd).map Prod.fst =
      (common_agent_ids sd).map (fun a => l2g.getD a 0) := by
  simp [final_writes, List.map_map, Function.comp_def]

/-- Lookup in a shifted identity row. -/
lemma range_map_add_getD (total n a : Nat) (ha : a < n) :
    ((List.range n).map (fun local_idx => total + local_idx)).getD a 0 = total + a := by
  rw [List.getD_eq_getElem?_getD, List.getElem?_map, List.getElem?_range ha]
  rfl

/-- The global indices a tick writes through a per-replica id selector. -/
def big_global_ids (sel : ReplicaSteps → List Nat) (agent_per_envs : List Nat)
    (steps : List ReplicaSteps) : List Nat :=
  (((from_local_to_global agent_per_envs).zip steps).map
    (fun p => (sel p.2).map (fun a => p.1.getD a 0))).flatten

/-- Membership in the written-global-index list: exactly the offsets of
the selected local ids, replica by replica. -/
lemma buildL2G_sel_mem (sel : ReplicaSteps → List Nat) :
    ∀ (counts : List Nat) (steps : List ReplicaSteps) (total : Nat),
      steps.length = counts.length →
      (∀ r, r < steps.length → ∀ a ∈ sel (steps.getD r default), a < counts.getD r 0) →
      ∀ g, (g ∈ (((buildL2G total counts).zip steps).map
            (fun p => (sel p.2).map (fun a => p.1.getD a 0))).flatten ↔
        ∃ r, r < steps.length ∧ ∃ a ∈ sel (steps.getD r default),
          g = total + env_offset counts r + a) := by
  intro counts
  induction counts with
  | nil =>
      intro steps total hlen _ g
      have hs : steps = [] := List.length_eq_zero.1 (by simpa using hlen)
      subst hs
      simp [buildL2G]
  | cons n rest ih =>
      intro steps total hlen hbound g
      cases steps with
      | nil => simp at hlen
      | cons sd srest =>
          have hlen' : srest.length = rest.length := by simpa using hlen
          have hbound0 : ∀ a ∈ sel sd, a < n := by
            have := hbound 0 (by simp)
            simpa using this
          have hboundS : ∀ r, r < srest.length → ∀ a ∈ sel (srest.getD r default),
              a < rest.getD r 0 := by
            intro r hr a ha
            have := hbound (r + 1) (by simpa using Nat.succ_lt_succ hr)
            simpa using this a ha
          have hhead : (sel sd).map
              (fun a => (((List.range n).map (fun local_idx => total + local_idx))).getD a 0) =
              (sel sd).map (fun a => total + a) :=
            List.map_congr_left (fun a ha => range_map_add_getD total n a (hbound0 a ha))
          simp only [buildL2G, List.zip_cons_cons, List.map_cons, List.flatten_cons,
            List.mem_append, hhead, ih srest (total + n) hlen' hboundS g]
          constructor
          · rintro (hg | ⟨r, hr, a, ha, rfl⟩)
            · rcases List.mem_map.1 hg with ⟨a, ha, rfl⟩
              exact ⟨0, by simp, a, by simpa using ha, by simp [env_offset]⟩
            · refine ⟨r + 1, by simpa using Nat.succ_lt_succ hr, a, by simpa using ha, ?_⟩
              simp only [env_offset, List.take_succ_cons, List.sum_cons]
              omega
          · rintro ⟨r, hr, a, ha, rfl⟩
            cases r with
            | zero =>
                left
                refine List.mem_map.2 ⟨a, by simpa using ha, ?_⟩
                simp [env_offset]
            | succ r =>
                right
                refine ⟨r, by simpa using hr, a, by simpa using ha, ?_⟩
                simp only [env_offset, List.take_succ_cons, List.sum_cons]
                omega

/-- The written-global-index list has no duplicates: inside one replica
the categories are disjoint and ids unique; across replicas the offset
ranges are disjoint. -/
lemma buildL2G_sel_nodup (sel : ReplicaSteps → List Nat) :
    ∀ (counts : List Nat) (steps : List ReplicaSteps) (total : Nat),
      steps.length = counts.length →
      (∀ r, r < steps.length → ∀ a ∈ sel (steps.getD r default), a < counts.getD r 0) →
      (∀ r, r < steps.length → (sel (steps.getD r default)).Nodup) →
      ((((buildL2G total counts).zip steps).map
        (fun p => (sel p.2).map (fun a => p.1.getD a 0))).flatten).Nodup := by
  intro counts
  induction counts with
  | nil =>
      intro steps total hlen _ _
      have hs : steps = [] := List.length_eq_zero.1 (by simpa using hlen)
      subst hs
      simp [buildL2G]
  | cons n rest ih =>
      intro steps total hlen hbound hnd
      cases steps with
      | nil => simp at hlen
      | cons sd srest =>
          have hlen' : srest.length = rest.length := by simpa using hlen
          have hbound0 : ∀ a ∈ sel sd, a < n := by
            have := hbound 0 (by simp)
            simpa using this
          have hboundS : ∀ r, r < srest.length → ∀ a ∈ sel (srest.getD r default),
              a < rest.getD r 0 := by
            intro r hr a ha
            have := hbound (r + 1) (by simpa using Nat.succ_lt_succ hr)
            simpa using this a ha
          have hndS : ∀ r, r < srest.length → (sel (srest.getD r default)).Nodup := by
            intro r hr
            have := hnd (r + 1) (by simpa using Nat.succ_lt_succ hr)
            simpa using this
          have hhead : (sel sd).map
              (fun a => (((List.range n).map (fun local_idx => total + local_idx))).getD a 0) =
              (sel sd).map (fun a => total + a) :=
            List.map_congr_left (fun a ha => range_map_add_getD total n a (hbound0 a ha))
          simp only [buildL2G, List.zip_cons_cons, List.map_cons, List.flatten_cons, hhead]
          refine List.Nodup.append ?_ (ih srest (total + n) hlen' hboundS hndS) ?_
          · refine List.Nodup.map (fun a b hab => by omega) ?_
            have := hnd 0 (by simp)
            simpa using this
          · intro g hg hg'
            rcases List.mem_map.1 hg with ⟨a, ha, rfl⟩
            have hlt : total + a < total + n := by
              have := hbound0 a ha
              omega
            rcases (buildL2G_sel_mem sel rest srest (total + n) hlen' hboundS _).1 hg' with
              ⟨r, _, b, _, hb⟩
            omega

/-! ## Bridging the write lists to global-index facts -/

lemma from_local_to_global_length (agent_per_envs : List Nat) :
    (from_local_to_global agent_per_envs).length = agent_per_envs.length := by
  have h := congrArg List.length (buildL2G_map_length agent_per_envs 0)
  simpa [from_local_to_global] using h

lemma step_observation_writes_map_fst (agent_per_envs : List Nat)
    (steps : List ReplicaSteps) :
    (step_observation_writes agent_per_envs steps).map Prod.fst =
      big_global_ids touched_ids agent_per_envs steps := by
  unfold step_observation_writes big_global_ids
  rw [List.map_flatten, List.map_map]
  refine congrArg List.flatten (List.map_congr_left fun p _ => ?_)
  exact observation_writes_map_fst p.1 p.2

lemma step_reward_writes_map_fst (agent_per_envs : List Nat) (steps : List ReplicaSteps) :
    (step_reward_writes agent_per_envs steps).map Prod.fst =
      big_global_ids touched_ids agent_per_envs steps := by
  unfold step_reward_writes big_global_ids
  rw [List.map_flatten, List.map_map]
  refine congrArg List.flatten (List.map_congr_left fun p _ => ?_)
  exact reward_writes_map_fst p.1 p.2

lemma step_terminated_writes_map_fst (agent_per_envs : List Nat) (steps : List ReplicaSteps) :
    (step_terminated_writes agent_per_envs steps).map Prod.fst =
      big_global_ids touched_ids agent_per_envs steps := by
  unfold step_terminated_writes big_global_ids
  rw [List.map_flatten, List.map_map]
  refine congrArg List.flatten (List.map_congr_left fun p _ => ?_)
  exact terminated_writes_map_fst p.1 p.2

lemma step_truncated_writes_map_fst (agent_per_envs : List Nat) (steps : List ReplicaSteps) :
    (step_truncated_writes agent_per_envs steps).map Prod.fst =
      big_global_ids touched_ids agent_per_envs steps := by
  unfold step_truncated_writes big_global_ids
  rw [List.map_flatten, List.map_map]
  refine congrArg List.flatten (List.map_congr_left fun p _ => ?_)
  exact truncated_writes_map_fst p.1 p.2

lemma step_final_writes_map_fst (agent_per_envs : List Nat) (steps : List ReplicaSteps) :
    (step_final_writes agent_per_envs steps).map Prod.fst =
      big_global_ids common_agent_ids agent_per_envs steps := by
  unfold step_final_writes big_global_ids
  rw [List.map_flatten, List.map_map]
  refine congrArg List.flatten (List.map_congr_left fun p _ => ?_)
  exact final_writes_map_fst p.1 p.2

lemma touched_bound_of_valid (agent_per_envs : List Nat) (steps : List ReplicaSteps)
    (hv : ValidSteps agent_per_envs steps) :
    ∀ r, r < steps.length → ∀ a ∈ touched_ids (steps.getD r default),
      a < agent_per_envs.getD r 0 :=
  fun r hr => touched_ids_lt _ _ (hv.2 r hr)

lemma touched_nodup_of_valid (agent_per_envs : List Nat) (steps : List ReplicaSteps)
    (hv : ValidSteps agent_per_envs steps) :
    ∀ r, r < steps.length → (touched_ids (steps.getD r default)).Nodup :=
  fun r hr => touched_ids_nodup _ (hv.2 r hr).1 (hv.2 r hr).2.1

lemma common_bound_of_valid (agent_per_envs : List Nat) (steps : List ReplicaSteps)
    (hv : ValidSteps agent_per_envs steps) :
    ∀ r, r < steps.length → ∀ a ∈ common_agent_ids (steps.getD r default),
      a < agent_per_envs.getD r 0 := by
  intro r hr a ha
  exact (hv.2 r hr).2.2.1 a ((mem_common_agent_ids _ a).1 ha).1

lemma common_nodup_of_valid (agent_per_envs : List Nat) (steps : List ReplicaSteps)
    (hv : ValidSteps agent_per_envs steps) :
    ∀ r, r < steps.length → (common_agent_ids (steps.getD r default)).Nodup :=
  fun r hr => List.Nodup.filter _ (hv.2 r hr).1

/-- Membership in the tick's global-index list, stated over
`from_local_to_global`. -/
lemma big_global_ids_mem (sel : ReplicaSteps → List Nat) (agent_per_envs : List Nat)
    (steps : List ReplicaSteps) (hlen : steps.length = agent_per_envs.length)
    (hbound : ∀ r, r < steps.length → ∀ a ∈ sel (steps.getD r default),
      a < agent_per_envs.getD r 0) (g : Nat) :
    g ∈ big_global_ids sel agent_per_envs steps ↔
      ∃ r, r < steps.length ∧ ∃ a ∈ sel (steps.getD r default),
        g = env_offset agent_per_envs r + a := by
  unfold big_global_ids from_local_to_global
  rw [buildL2G_sel_mem sel agent_per_envs steps 0 hlen hbound g]
  simp

/-- No-duplicates for the tick's global-index list, stated over
`from_local_to_global`. -/
lemma big_global_ids_nodup (sel : ReplicaSteps → List Nat) (agent_per_envs : List Nat)
    (steps : List ReplicaSteps) (hlen : steps.length = agent_per_envs.length)
    (hbound : ∀ r, r < steps.length → ∀ a ∈ sel (steps.getD r default),
      a < agent_per_envs.getD r 0)
    (hnd : ∀ r, r < steps.length → (sel (steps.getD r default)).Nodup) :
    (big_global_ids sel agent_per_envs steps).Nodup := by
  unfold big_global_ids from_local_to_global
  exact buildL2G_sel_nodup sel agent_per_envs steps 0 hlen hbound hnd

/-- Offsets are monotone in the replica index. -/
lemma env_offset_mono (agent_per_envs : List Nat) (i j : Nat) (h : i ≤ j) :
    env_offset agent_per_envs i ≤ env_offset agent_per_envs j := by
  unfold env_offset
  have h1 : (agent_per_envs.take j).take i = agent_per_envs.take i := by
    rw [List.take_take, min_eq_left h]
  have h2 := List.sum_take_add_sum_drop (agent_per_envs.take j) i
  rw [h1] at h2
  omega

/-- Offset of the next replica. -/
lemma env_offset_succ (agent_per_envs : List Nat) (r : Nat) (hr : r < agent_per_envs.length) :
    env_offset agent_per_envs (r + 1) =
      env_offset agent_per_envs r + agent_per_envs.getD r 0 := by
  unfold env_offset
  rw [List.take_succ, List.sum_append, List.getElem?_eq_getElem hr]
  have : agent_per_envs.getD r 0 = agent_per_envs[r] := by
    rw [List.getD_eq_getElem?_getD, List.getElem?_eq_getElem hr]; rfl
  simp [this, List.getElem?_eq_getElem hr]

/-- A global index determines its replica and local id. -/
lemma global_index_inj (agent_per_envs : List Nat) (r r' a a' : Nat)
    (hr : r < agent_per_envs.length) (hr' : r' < agent_per_envs.length)
    (ha : a < agent_per_envs.getD r 0) (ha' : a' < agent_per_envs.getD r' 0)
    (heq : env_offset agent_per_envs r + a = env_offset agent_per_envs r' + a') :
    r = r' ∧ a = a' := by
  rcases Nat.lt_trichotomy r r' with hlt | hEq | hgt
  · exfalso
    have h1 := env_offset_succ agent_per_envs r hr
    have h2 := env_offset_mono agent_per_envs (r + 1) r' hlt
    omega
  · subst hEq
    omega
  · exfalso
    have h1 := env_offset_succ agent_per_envs r' hr'
    have h2 := env_offset_mono agent_per_envs (r' + 1) r hgt
    omega

/-- Generic "hit" step: a write present in the tick's write list for a
touched agent determines the output cell. -/
lemma step_write_hit {β : Type} (agent_per_envs : List Nat) (steps : List ReplicaSteps)
    (hv : ValidSteps agent_per_envs steps) (ws : List (Nat × β)) (d : β)
    (hfst : ws.map Prod.fst = big_global_ids touched_ids agent_per_envs steps)
    (r a : Nat) (hr : r < steps.length) (ha : a ∈ touched_ids (steps.getD r default))
    (v : β) (hmem : (env_offset agent_per_envs r + a, v) ∈ ws) :
    (applyWrites ws (List.replicate agent_per_envs.sum d))[env_offset agent_per_envs r + a]? =
      some v := by
  have halt : a < agent_per_envs.getD r 0 :=
    touched_bound_of_valid agent_per_envs steps hv r hr a ha
  have hrc : r < agent_per_envs.length := hv.1 ▸ hr
  have hg : env_offset agent_per_envs r + a < agent_per_envs.sum := by
    have := env_offset_add_getD_le agent_per_envs r hrc
    omega
  have := applyWrites_getElem?_mem ws (List.replicate agent_per_envs.sum d)
    (env_offset agent_per_envs r + a, v) ?_ hmem ?_
  · exact this
  · rw [hfst]
    exact big_global_ids_nodup touched_ids agent_per_envs steps hv.1
      (touched_bound_of_valid agent_per_envs steps hv)
      (touched_nodup_of_valid agent_per_envs steps hv)
  · rw [List.length_replicate]
    exact hg

/-- Generic membership constructor: a write of replica `r`'s per-replica
write list is in the tick's flattened write list. -/
lemma step_write_mem {β : Type} (agent_per_envs : List Nat) (steps : List ReplicaSteps)
    (fw : List Nat → ReplicaSteps → List (Nat × β)) (r : Nat)
    (hr : r < steps.length) (hlen : steps.length = agent_per_envs.length)
    (w : Nat × β)
    (hw : w ∈ fw ((from_local_to_global agent_per_envs).getD r []) (steps.getD r default)) :
    w ∈ (((from_local_to_global agent_per_envs).zip steps).map (fun p => fw p.1 p.2)).flatten := by
  have hl2g : (from_local_to_global agent_per_envs).length = agent_per_envs.length :=
    from_local_to_global_length agent_per_envs
  have hzlen : ((from_local_to_global agent_per_envs).zip steps).length = steps.length := by
    rw [List.length_zip]
    omega
  have hrz : r < ((from_local_to_global agent_per_envs).zip steps).length := by omega
  have hrl : r < (from_local_to_global agent_per_envs).length := by omega
  refine List.mem_flatten.2 ⟨fw ((from_local_to_global agent_per_envs).getD r [])
    (steps.getD r default), List.mem_map.2 ⟨((from_local_to_global agent_per_envs).getD r [],
      steps.getD r default), ?_, rfl⟩, hw⟩
  refine List.mem_iff_getElem.2 ⟨r, hrz, ?_⟩
  rw [List.getElem_zip]
  have h1 : (from_local_to_global agent_per_envs)[r] =
      (from_local_to_global agent_per_envs).getD r [] := by
    rw [List.getD_eq_getElem?_getD, List.getElem?_eq_getElem hrl]; rfl
  have h2 : steps[r] = steps.getD r default := by
    rw [List.getD_eq_getElem?_getD, List.getElem?_eq_getElem hr]; rfl
  rw [h1, h2]

/-- Generic "miss" step: a cell whose global index no selected agent maps
to keeps its `None` initialisation. -/
lemma step_unset {β : Type} (agent_per_envs : List Nat) (steps : List ReplicaSteps)
    (hlen : steps.length = agent_per_envs.length) (ws : List (Nat × β)) (d : β)
    (sel : ReplicaSteps → List Nat)
    (hfst : ws.map Prod.fst = big_global_ids sel agent_per_envs steps)
    (hbound : ∀ r, r < steps.length → ∀ a ∈ sel (steps.getD r default),
      a < agent_per_envs.getD r 0)
    (g : Nat) (hg : g < agent_per_envs.sum)
    (hnm : ∀ r, r < steps.length → ∀ a ∈ sel (steps.getD r default),
      env_offset agent_per_envs r + a ≠ g) :
    (applyWrites ws (List.replicate agent_per_envs.sum d))[g]? = some d := by
  rw [applyWrites_getElem?_not_mem]
  · rw [List.getElem?_replicate, if_pos hg]
  · intro w hw hweq
    have hmem : w.1 ∈ ws.map Prod.fst := List.mem_map_of_mem _ hw
    rw [hfst, hweq] at hmem
    rcases (big_global_ids_mem sel agent_per_envs steps hlen hbound g).1 hmem with
      ⟨r, hr, a, ha, hgeq⟩
    exact hnm r hr a ha hgeq.symm

/-- The `final_observations` cell of a non-common agent stays `None`. -/
lemma step_final_unset (agent_per_envs : List Nat) (steps : List ReplicaSteps)
    (hv : ValidSteps agent_per_envs steps) (r a : Nat) (hr : r < steps.length)
    (halt : a < agent_per_envs.getD r 0)
    (hnc : a ∉ common_agent_ids (steps.getD r default)) :
    (step_collect agent_per_envs steps).final_observations[env_offset agent_per_envs r + a]? =
      some none := by
  rw [step_collect_final]
  refine step_unset agent_per_envs steps hv.1 _ _ common_agent_ids
    (step_final_writes_map_fst agent_per_envs steps)
    (common_bound_of_valid agent_per_envs steps hv) _ ?_ ?_
  · have := env_offset_add_getD_le agent_per_envs r (hv.1 ▸ hr)
    omega
  · intro r' hr' a' ha' heq
    have hb' : a' < agent_per_envs.getD r' 0 :=
      common_bound_of_valid agent_per_envs steps hv r' hr' a' ha'
    have hinj := global_index_inj agent_per_envs r' r a' a (hv.1 ▸ hr') (hv.1 ▸ hr) hb' halt heq
    exact hnc (hinj.1 ▸ hinj.2 ▸ ha')

/-- The `final_observations` cell of a common agent holds its terminal
observation. -/
lemma step_final_common_hit (agent_per_envs : List Nat) (steps : List ReplicaSteps)
    (hv : ValidSteps agent_per_envs steps) (r a : Nat) (hr : r < steps.length)
    (hc : a ∈ common_agent_ids (steps.getD r default)) :
    (step_collect agent_per_envs steps).final_observations[env_offset agent_per_envs r + a]? =
      some (term_obs_of (steps.getD r default) a) := by
  have hrc : r < agent_per_envs.length := hv.1 ▸ hr
  have halt : a < agent_per_envs.getD r 0 :=
    common_bound_of_valid agent_per_envs steps hv r hr a hc
  have hgetD : ((from_local_to_global agent_per_envs).getD r []).getD a 0 =
      env_offset agent_per_envs r + a :=
    from_local_to_global_getD agent_per_envs r a hrc halt
  rw [step_collect_final]
  refine applyWrites_getElem?_mem _ _
    (env_offset agent_per_envs r + a, term_obs_of (steps.getD r default) a) ?_ ?_ ?_
  · rw [step_final_writes_map_fst]
    exact big_global_ids_nodup common_agent_ids agent_per_envs steps hv.1
      (common_bound_of_valid agent_per_envs steps hv)
      (common_nodup_of_valid agent_per_envs steps hv)
  · exact step_write_mem agent_per_envs steps final_writes r hr hv.1 _
      (List.mem_map.2 ⟨a, hc, by rw [hgetD]⟩)
  · rw [List.length_replicate]
    have := env_offset_add_getD_le agent_per_envs r hrc
    omega

/-- The `truncated` cell of every agent reported this tick (any category)
is `False`. -/
lemma step_truncated_touched_hit (agent_per_envs : List Nat) (steps : List ReplicaSteps)
    (hv : ValidSteps agent_per_envs steps) (r a : Nat) (hr : r < steps.length)
    (ha : a ∈ touched_ids (steps.getD r default)) :
    (step_collect agent_per_envs steps).truncated[env_offset agent_per_envs r + a]? =
      some (some false) := by
  have hrc : r < agent_per_envs.length := hv.1 ▸ hr
  have halt : a < agent_per_envs.getD r 0 :=
    touched_bound_of_valid agent_per_envs steps hv r hr a ha
  have hgetD : ((from_local_to_global agent_per_envs).getD r []).getD a 0 =
      env_offset agent_per_envs r + a :=
    from_local_to_global_getD agent_per_envs r a hrc halt
  rw [step_collect_truncated]
  refine step_write_hit agent_per_envs steps hv _ _
    (step_truncated_writes_map_fst agent_per_envs steps) r a hr ha _
    (step_write_mem agent_per_envs steps truncated_writes r hr hv.1 _ ?_)
  unfold truncated_writes
  rcases List.mem_append.1 ha with hc | hdt
  · exact List.mem_append.2 (Or.inl (List.mem_map.2 ⟨a, hc, by rw [hgetD]⟩))
  · rcases List.mem_append.1 hdt with hd | ht
    · exact List.mem_append.2 (Or.inr (List.mem_append.2 (Or.inl
        (List.mem_map.2 ⟨a, hd, by rw [hgetD]⟩))))
    · exact List.mem_append.2 (Or.inr (List.mem_append.2 (Or.inr
        (List.mem_map.2 ⟨a, ht, by rw [hgetD]⟩))))

/-! ## Claim C1 — per-category step reconciliation -/

/-- C1: every reported agent of every replica is written by category.  A
`common` agent's global row holds its fresh decision observation, its
terminal observation as final observation, its terminal reward, and
`terminated = True`.  A `decision_only` agent's row holds its decision
observation and decision reward, `terminated = False`,
`truncated = False`, and no final observation.  A `terminal_only` agent's
row holds its terminal observation and terminal reward,
`terminated = True`, and its final observation left unset. -/
theorem C1_step_reconciliation_categories (agent_per_envs : List Nat)
    (steps : List ReplicaSteps) (hv : ValidSteps agent_per_envs steps) (r a : Nat)
    (hr : r < steps.length) :
    (a ∈ common_agent_ids (steps.getD r default) →
      (step_collect agent_per_envs steps).observations[env_offset agent_per_envs r + a]? =
        some (dec_obs_of (steps.getD r default) a) ∧
      (step_collect agent_per_envs
          steps).final_observations[env_offset agent_per_envs r + a]? =
        some (term_obs_of (steps.getD r default) a) ∧
      (step_collect agent_per_envs steps).rewards[env_offset agent_per_envs r + a]? =
        some (term_reward_of (steps.getD r default) a) ∧
      (step_collect agent_per_envs steps).terminated[env_offset agent_per_envs r + a]? =
        some (some true)) ∧
    (a ∈ decision_only_agent_ids (steps.getD r default) →
      (step_collect agent_per_envs steps).observations[env_offset agent_per_envs r + a]? =
        some (dec_obs_of (steps.getD r default) a) ∧
      (step_collect agent_per_envs steps).rewards[env_offset agent_per_envs r + a]? =
        some (dec_reward_of (steps.getD r default) a) ∧
      (step_collect agent_per_envs steps).terminated[env_offset agent_per_envs r + a]? =
        some (some false) ∧
      (step_collect agent_per_envs steps).truncated[env_offset agent_per_envs r + a]? =
        some (some false) ∧
      (step_collect agent_per_envs
          steps).final_observations[env_offset agent_per_envs r + a]? = some none) ∧
    (a ∈ terminal_only_agent_ids (steps.getD r default) →
      (step_collect agent_per_envs steps).observations[env_offset agent_per_envs r + a]? =
        some (term_obs_of (steps.getD r default) a) ∧
      (step_collect agent_per_envs steps).rewards[env_offset agent_per_envs r + a]? =
        some (term_reward_of (steps.getD r default) a) ∧
      (step_collect agent_per_envs steps).terminated[env_offset agent_per_envs r + a]? =
        some (some true) ∧
      (step_collect agent_per_envs
          steps).final_observations[env_offset agent_per_envs r + a]? = some none) := by
  have hrc : r < agent_per_envs.length := hv.1 ▸ hr
  refine ⟨fun hc => ?_, fun hd => ?_, fun ht => ?_⟩
  · have htouch : a ∈ touched_ids (steps.getD r default) := List.mem_append.2 (Or.inl hc)
    have halt : a < agent_per_envs.getD r 0 :=
      touched_bound_of_valid agent_per_envs steps hv r hr a htouch
    have hgetD : ((from_local_to_global agent_per_envs).getD r []).getD a 0 =
        env_offset agent_per_envs r + a :=
      from_local_to_global_getD agent_per_envs r a hrc halt
    refine ⟨?_, ?_, ?_, ?_⟩
    · rw [step_collect_observations]
      refine step_write_hit agent_per_envs steps hv _ _
        (step_observation_writes_map_fst agent_per_envs steps) r a hr htouch _
        (step_write_mem agent_per_envs steps observation_writes r hr hv.1 _ ?_)
      unfold observation_writes
      exact List.mem_append.2 (Or.inl (List.mem_map.2 ⟨a, hc, by rw [hgetD]⟩))
    · exact step_final_common_hit agent_per_envs steps hv r a hr hc
    · rw [step_collect_rewards]
      refine step_write_hit agent_per_envs steps hv _ _
        (step_reward_writes_map_fst agent_per_envs steps) r a hr htouch _
        (step_write_mem agent_per_envs steps reward_writes r hr hv.1 _ ?_)
      unfold reward_writes
      exact List.mem_append.2 (Or.inl (List.mem_map.2 ⟨a, hc, by rw [hgetD]⟩))
    · rw [step_collect_terminated]
      refine step_write_hit agent_per_envs steps hv _ _
        (step_terminated_writes_map_fst agent_per_envs steps) r a hr htouch _
        (step_write_mem agent_per_envs steps terminated_writes r hr hv.1 _ ?_)
      unfold terminated_writes
      exact List.mem_append.2 (Or.inl (List.mem_map.2 ⟨a, hc, by rw [hgetD]⟩))
  · have htouch : a ∈ touched_ids (steps.getD r default) :=
      List.mem_append.2 (Or.inr (List.mem_append.2 (Or.inl hd)))
    have halt : a < agent_per_envs.getD r 0 :=
      touched_bound_of_valid agent_per_envs steps hv r hr a htouch
    have hgetD : ((from_local_to_global agent_per_envs).getD r []).getD a 0 =
        env_offset agent_per_envs r + a :=
      from_local_to_global_getD agent_per_envs r a hrc halt
    have hnc : a ∉ common_agent_ids (steps.getD r default) := by
      intro hc
      exact ((mem_decision_only_agent_ids _ a).1 hd).2 ((mem_common_agent_ids _ a).1 hc).2
    refine ⟨?_, ?_, ?_, ?_, step_final_unset agent_per_envs steps hv r a hr halt hnc⟩
    · rw [step_collect_observations]
      refine step_write_hit agent_per_envs steps hv _ _
        (step_observation_writes_map_fst agent_per_envs steps) r a hr htouch _
        (step_write_mem agent_per_envs steps observation_writes r hr hv.1 _ ?_)
      unfold observation_writes
      exact List.mem_append.2 (Or.inr (List.mem_append.2 (Or.inl
        (List.mem_map.2 ⟨a, hd, by rw [hgetD]⟩))))
    · rw [step_collect_rewards]
      refine step_write_hit agent_per_envs steps hv _ _
        (step_reward_writes_map_fst agent_per_envs steps) r a hr htouch _
        (step_write_mem agent_per_envs steps reward_writes r hr hv.1 _ ?_)
      unfold reward_writes
      exact List.mem_append.2 (Or.inr (List.mem_append.2 (Or.inl
        (List.mem_map.2 ⟨a, hd, by rw [hgetD]⟩))))
    · rw [step_collect_terminated]
      refine step_write_hit agent_per_envs steps hv _ _
        (step_terminated_writes_map_fst agent_per_envs steps) r a hr htouch _
        (step_write_mem agent_per_envs steps terminated_writes r hr hv.1 _ ?_)
      unfold terminated_writes
      exact List.mem_append.2 (Or.inr (List.mem_append.2 (Or.inl
        (List.mem_map.2 ⟨a, hd, by rw [hgetD]⟩))))
    · rw [step_collect_truncated]
      refine step_write_hit agent_per_envs steps hv _ _
        (step_truncated_writes_map_fst agent_per_envs steps) r a hr htouch _
        (step_write_mem agent_per_envs steps truncated_writes r hr hv.1 _ ?_)
      unfold truncated_writes
      exact List.mem_append.2 (Or.inr (List.mem_append.2 (Or.inl
        (List.mem_map.2 ⟨a, hd, by rw [hgetD]⟩))))
  · have htouch : a ∈ touched_ids (steps.getD r default) :=
      List.mem_append.2 (Or.inr (List.mem_append.2 (Or.inr ht)))
    have halt : a < agent_per_envs.getD r 0 :=
      touched_bound_of_valid agent_per_envs steps hv r hr a htouch
    have hgetD : ((from_local_to_global agent_per_envs).getD r []).getD a 0 =
        env_offset agent_per_envs r + a :=
      from_local_to_global_getD agent_per_envs r a hrc halt
    have hnc : a ∉ common_agent_ids (steps.getD r default) := by
      intro hc
      exact ((mem_terminal_only_agent_ids _ a).1 ht).2 ((mem_common_agent_ids _ a).1 hc).1
    refine ⟨?_, ?_, ?_, step_final_unset agent_per_envs steps hv r a hr halt hnc⟩
    · rw [step_collect_observations]
      refine step_write_hit agent_per_envs steps hv _ _
        (step_observation_writes_map_fst agent_per_envs steps) r a hr htouch _
        (step_write_mem agent_per_envs steps observation_writes r hr hv.1 _ ?_)
      unfold observation_writes
      exact List.mem_append.2 (Or.inr (List.mem_append.2 (Or.inr
        (List.mem_map.2 ⟨a, ht, by rw [hgetD]⟩))))
    · rw [step_collect_rewards]
      refine step_write_hit agent_per_envs steps hv _ _
        (step_reward_writes_map_fst agent_per_envs steps) r a hr htouch _
        (step_write_mem agent_per_envs steps reward_writes r hr hv.1 _ ?_)
      unfold reward_writes
      exact List.mem_append.2 (Or.inr (List.mem_append.2 (Or.inr
        (List.mem_map.2 ⟨a, ht, by rw [hgetD]⟩))))
    · rw [step_collect_terminated]
      refine step_write_hit agent_per_envs steps hv _ _
        (step_terminated_writes_map_fst agent_per_envs steps) r a hr htouch _
        (step_write_mem agent_per_envs steps terminated_writes r hr hv.1 _ ?_)
      unfold terminated_writes
      exact List.mem_append.2 (Or.inr (List.mem_append.2 (Or.inr
        (List.mem_map.2 ⟨a, ht, by rw [hgetD]⟩))))

/-- C1 witness: in the concrete scenario, replica 1's agent 0 is common —
its global row 2 gets the fresh decision observation, the terminal
observation as final observation, and `terminated = True`. -/
theorem C1_step_reconciliation_categories_witness :
    (ValidSteps [2, 1] [scenario_replica0, scenario_replica1] ∧
      1 < ([scenario_replica0, scenario_replica1] : List ReplicaSteps).length ∧
      0 ∈ common_agent_ids
        (([scenario_replica0, scenario_replica1] : List ReplicaSteps).getD 1 default)) ∧
    (step_collect [2, 1]
        [scenario_replica0, scenario_replica1]).observations[env_offset [2, 1] 1 + 0]? =
      some (dec_obs_of
        (([scenario_replica0, scenario_replica1] : List ReplicaSteps).getD 1 default) 0) ∧
    (step_collect [2, 1]
        [scenario_replica0, scenario_replica1]).final_observations[env_offset [2, 1] 1 + 0]? =
      some (term_obs_of
        (([scenario_replica0, scenario_replica1] : List ReplicaSteps).getD 1 default) 0) ∧
    (step_collect [2, 1]
        [scenario_replica0, scenario_replica1]).terminated[env_offset [2, 1] 1 + 0]? =
      some (some true) :=
  ⟨⟨by decide, by decide, by decide⟩,
    ((C1_step_reconciliation_categories [2, 1] [scenario_replica0, scenario_replica1]
        (by decide) 1 0 (by decide)).1 (by decide)).1,
    ((C1_step_reconciliation_categories [2, 1] [scenario_replica0, scenario_replica1]
        (by decide) 1 0 (by decide)).1 (by decide)).2.1,
    ((C1_step_reconciliation_categories [2, 1] [scenario_replica0, scenario_replica1]
        (by decide) 1 0 (by decide)).1 (by decide)).2.2.2⟩

/-! ## Claim C2 — when `final_observation` is present (corrected) -/

/-- C2 counterexample: in the concrete scenario, replica 0's agent 1 is
terminal-only, hence `terminated` at its global row 1 — yet its
`final_observation` is left `None`, contrary to the claim that every
terminated agent gets one. -/
theorem C2_counterexample :
    1 ∈ terminal_only_agent_ids scenario_replica0 ∧
    (step_collect [2, 1] [scenario_replica0, scenario_replica1]).terminated.getD 1 none =
      some true ∧
    (step_collect [2, 1] [scenario_replica0, scenario_replica1]).final_observations.getD 1
      none = none := by
  decide

/-- C2 amended: `final_observation[g]` is present iff `g` is the global
row of an agent in the COMMON set of its replica this tick (terminal and
simultaneously re-appearing as a decision agent); it is never present for
a decision-only or terminal-only agent. -/
theorem C2_final_observation_iff (agent_per_envs : List Nat) (steps : List ReplicaSteps)
    (hv : ValidSteps agent_per_envs steps) (g : Nat) (hg : g < agent_per_envs.sum) :
    (step_collect agent_per_envs steps).final_observations.getD g none ≠ none ↔
      ∃ r, r < steps.length ∧ ∃ a ∈ common_agent_ids (steps.getD r default),
        g = env_offset agent_per_envs r + a := by
  constructor
  · intro hne
    by_contra hnot
    push_neg at hnot
    apply hne
    rw [List.getD_eq_getElem?_getD, step_collect_final,
      step_unset agent_per_envs steps hv.1 _ _ common_agent_ids
        (step_final_writes_map_fst agent_per_envs steps)
        (common_bound_of_valid agent_per_envs steps hv) g hg
        (fun r hr a ha heq => hnot r hr a ha heq.symm)]
    rfl
  · rintro ⟨r, hr, a, ha, rfl⟩
    rw [List.getD_eq_getElem?_getD,
      step_final_common_hit agent_per_envs steps hv r a hr ha, Option.getD_some,
      term_obs_of]
    simp

/-- C2 witness: in the concrete scenario, global row 2 is replica 1's
common agent 0, and its `final_observation` is indeed present. -/
theorem C2_final_observation_iff_witness :
    (ValidSteps [2, 1] [scenario_replica0, scenario_replica1] ∧
      2 < ([2, 1] : List Nat).sum) ∧
    ((step_collect [2, 1] [scenario_replica0, scenario_replica1]).final_observations.getD 2
        none ≠ none ↔
      ∃ r, r < ([scenario_replica0, scenario_replica1] : List ReplicaSteps).length ∧
        ∃ a ∈ common_agent_ids
          (([scenario_replica0, scenario_replica1] : List ReplicaSteps).getD r default),
          2 = env_offset [2, 1] r + a) :=
  ⟨⟨by decide, by decide⟩,
    C2_final_observation_iff [2, 1] [scenario_replica0, scenario_replica1]
      (by decide) 2 (by decide)⟩

/-! ## Claim C3 — truncation flags (corrected) -/

/-- C3 counterexample: in the concrete scenario the backend flags replica
0's terminal agent 1 as interrupted (`truncated = true`), yet the step
output still reports `truncated = False` for its global row — the flag is
not passed through. -/
theorem C3_counterexample :
    scenario_replica0.interrupted.getD
        (agent_id_to_local scenario_replica0.terminal_ids 1) false = true ∧
    1 ∈ terminal_only_agent_ids scenario_replica0 ∧
    (step_collect [2, 1] [scenario_replica0, scenario_replica1]).truncated.getD 1 none =
      some false := by
  decide

/-- C3 amended: the reconciler writes `truncated = False` for every
reported agent of every category, and the backend's per-agent truncation
report is ignored entirely — the step output is invariant under arbitrary
changes to the reported `interrupted` flags. -/
theorem C3_truncated_always_false (agent_per_envs : List Nat) (steps : List ReplicaSteps)
    (hv : ValidSteps agent_per_envs steps) :
    (∀ r a, r < steps.length → a ∈ touched_ids (steps.getD r default) →
      (step_collect agent_per_envs steps).truncated[env_offset agent_per_envs r + a]? =
        some (some false)) ∧
    ∀ f : ReplicaSteps → List Bool,
      step_collect agent_per_envs
          (steps.map (fun sd => { sd with interrupted := f sd })) =
        step_collect agent_per_envs steps := by
  constructor
  · intro r a hr ha
    exact step_truncated_touched_hit agent_per_envs steps hv r a hr ha
  · intro f
    unfold step_collect
    rw [List.zip_map_right, List.foldl_map]
    have hlen : (steps.map (fun sd => { sd with interrupted := f sd })).length =
        steps.length := List.length_map _ _
    rfl

/-- C3 witness: the concrete scenario, replica 0's terminal-only agent 1
(whose `interrupted` flag is `true`), and clearing all flags. -/
theorem C3_truncated_always_false_witness :
    ValidSteps [2, 1] [scenario_replica0, scenario_replica1] ∧
    (step_collect [2, 1]
        [scenario_replica0, scenario_replica1]).truncated[env_offset [2, 1] 0 + 1]? =
      some (some false) ∧
    step_collect [2, 1]
        ([scenario_replica0, scenario_replica1].map
          (fun sd => { sd with interrupted := ([] : List Bool) } )) =
      step_collect [2, 1] [scenario_replica0, scenario_replica1] := by
  refine ⟨by decide, ?_, ?_⟩
  · exact (C3_truncated_always_false [2, 1] [scenario_replica0, scenario_replica1]
      (by decide)).1 0 1 (by decide) (by decide)
  · exact (C3_truncated_always_false [2, 1] [scenario_replica0, scenario_replica1]
      (by decide)).2 (fun _ => [])

/-! ## Claim C4 — untouched agents (corrected) -/

/-- A tick report in which a replica reports no agents at all. -/
def empty_replica_steps : ReplicaSteps :=
  { decision_ids := [], decision_obs := [], decision_reward := []
    terminal_ids := [], terminal_obs := [], terminal_reward := [], interrupted := [] }

/-- C4 counterexample: with one registered agent touched by neither the
decision nor the terminal set, `step` does NOT fail — it returns the batch
normally, with every array entry for that agent silently left `None`.  No
`MissingAgentInStep` (or any other) error exists on this path. -/
theorem C4_counterexample :
    step_collect [1] [empty_replica_steps] = init_transitions 1 ∧
    (step_collect [1] [empty_replica_steps]).observations.getD 0 none = none ∧
    (step_collect [1] [empty_replica_steps]).terminated.getD 0 none = none := by
  decide

/-- C4 amended: a global index no replica's decision or terminal set maps
to this tick is silently left `None` in all five arrays of the returned
batch; the reconciler has no failure path for untouched indices. -/
theorem C4_untouched_left_unset (agent_per_envs : List Nat) (steps : List ReplicaSteps)
    (hv : ValidSteps agent_per_envs steps) (g : Nat) (hg : g < agent_per_envs.sum)
    (huntouched : ∀ r, r < steps.length → ∀ a ∈ touched_ids (steps.getD r default),
      env_offset agent_per_envs r + a ≠ g) :
    (step_collect agent_per_envs steps).observations[g]? = some none ∧
    (step_collect agent_per_envs steps).rewards[g]? = some none ∧
    (step_collect agent_per_envs steps).terminated[g]? = some none ∧
    (step_collect agent_per_envs steps).truncated[g]? = some none ∧
    (step_collect agent_per_envs steps).final_observations[g]? = some none := by
  have hcm : ∀ r, r < steps.length → ∀ a ∈ common_agent_ids (steps.getD r default),
      env_offset agent_per_envs r + a ≠ g :=
    fun r hr a ha => huntouched r hr a (List.mem_append.2 (Or.inl ha))
  refine ⟨?_, ?_, ?_, ?_, ?_⟩
  · rw [step_collect_observations]
    exact step_unset agent_per_envs steps hv.1 _ _ touched_ids
      (step_observation_writes_map_fst agent_per_envs steps)
      (touched_bound_of_valid agent_per_envs steps hv) g hg huntouched
  · rw [step_collect_rewards]
    exact step_unset agent_per_envs steps hv.1 _ _ touched_ids
      (step_reward_writes_map_fst agent_per_envs steps)
      (touched_bound_of_valid agent_per_envs steps hv) g hg huntouched
  · rw [step_collect_terminated]
    exact step_unset agent_per_envs steps hv.1 _ _ touched_ids
      (step_terminated_writes_map_fst agent_per_envs steps)
      (touched_bound_of_valid agent_per_envs steps hv) g hg huntouched
  · rw [step_collect_truncated]
    exact step_unset agent_per_envs steps hv.1 _ _ touched_ids
      (step_truncated_writes_map_fst agent_per_envs steps)
      (touched_bound_of_valid agent_per_envs steps hv) g hg huntouched
  · rw [step_collect_final]
    exact step_unset agent_per_envs steps hv.1 _ _ common_agent_ids
      (step_final_writes_map_fst agent_per_envs steps)
      (common_bound_of_valid agent_per_envs steps hv) g hg hcm

/-- C4 witness: one registered agent, an empty tick report. -/
theorem C4_untouched_left_unset_witness :
    (ValidSteps [1] [empty_replica_steps] ∧ 0 < ([1] : List Nat).sum ∧
      (∀ r, r < ([empty_replica_steps] : List ReplicaSteps).length →
        ∀ a ∈ touched_ids (([empty_replica_steps] : List ReplicaSteps).getD r default),
          env_offset [1] r + a ≠ 0)) ∧
    (step_collect [1] [empty_replica_steps]).observations[0]? = some none ∧
    (step_collect [1] [empty_replica_steps]).final_observations[0]? = some none :=
  ⟨⟨by decide, by decide, by decide⟩,
    (C4_untouched_left_unset [1] [empty_replica_steps] (by decide) 0 (by decide)
      (by decide)).1,
    (C4_untouched_left_unset [1] [empty_replica_steps] (by decide) 0 (by decide)
      (by decide)).2.2.2.2⟩

/-! ## Claim C5 — index-map contiguity -/

/-- C5: building the agent index map from the ordered per-replica agent
counts assigns exactly the contiguous global indices `0..total_agents`,
replica-major with local ids increasing inside each replica (the
concatenation of the per-replica rows is literally `range total_agents`),
each replica receiving as many indices as it has agents; in particular
counts `[2,1]` give rows `[[0,1],[2]]` and 3 agents in total. -/
theorem C5_index_map_contiguous_replica_major :
    (∀ agent_per_envs : List Nat,
      (from_local_to_global agent_per_envs).flatten = List.range agent_per_envs.sum ∧
      (from_local_to_global agent_per_envs).map List.length = agent_per_envs) ∧
    from_local_to_global [2, 1] = [[0, 1], [2]] ∧ ([2, 1] : List Nat).sum = 3 := by
  refine ⟨fun agent_per_envs => ⟨?_, ?_⟩, by decide, by decide⟩
  · rw [from_local_to_global, buildL2G_flatten]
    simp
  · rw [from_local_to_global, buildL2G_map_length]

/-! ## Claim C8 — flat-dimension computation (corrected) -/

/-- C8 counterexample: the claim says a continuous box contributes the
number of its scalar elements and a discrete component its cast width.
The code returns the last shape entry for a box (`3`, not `6`, for shape
`[2,3]`) and the category count for a discrete component (`5`, not `1`,
for `Discrete(5)`). -/
theorem C8_counterexample :
    compute_space_dimension (GymSpace.box [2, 3]) = 3 ∧ 2 * 3 = 6 ∧ (3 : Nat) ≠ 6 ∧
    compute_space_dimension (GymSpace.discrete 5) = 5 ∧ (5 : Nat) ≠ 1 := by
  decide

/-- C8 amended: the flat-dimension function is a pure function of the
space returning the size of the LAST shape dimension for a continuous box
(not the full scalar-element count), the category count `n` for a discrete
component, the sum of the branch sizes for a multi-discrete component (the
one-hot width, not one unit per dimension), and for a composite the sum
over its children. -/
theorem C8_flat_dimension_amended :
    (∀ shape : List Nat, compute_space_dimension (GymSpace.box shape) = shape.getLastD 0) ∧
    (∀ n : Nat, compute_space_dimension (GymSpace.discrete n) = n) ∧
    (∀ nvec : List Nat, compute_space_dimension (GymSpace.multiDiscrete nvec) = nvec.sum) ∧
    (∀ sps : List GymSpace, compute_space_dimension (GymSpace.tuple sps) =
      (sps.map compute_space_dimension).sum) ∧
    (∀ sps : List (String × GymSpace), compute_space_dimension (GymSpace.dict sps) =
      (sps.map (fun p => compute_space_dimension p.2)).sum) :=
  ⟨fun _ => rfl, fun _ => rfl, fun _ => rfl,
    fun sps => sumSpaceDims_eq sps, fun sps => sumNamedSpaceDims_eq sps⟩

/-! ## Claim C9 — image-space rejection (corrected) -/

/-- C9 counterexample: a rank-4 continuous component (shape `[2,3,4,5]`,
rank ≥ 3ary) is NOT rejected — setup succeeds and records combined width
`120` — because the code tests `len(shape) == 3`, not `len(shape) >= 3`. -/
theorem C9_counterexample :
    define_observation_space 1 [[2, 3, 4, 5]] = Except.ok (1, 120) ∧
    ([2, 3, 4, 5] : List Nat).length = 4 :=
  ⟨rfl, rfl⟩

/-- C9 amended: observation-space setup fails with the unsupported-image
error exactly when some component shape has rank EXACTLY 3; components of
rank 4 or more are accepted. -/
theorem C9_image_rejection_amended (num_agents : Nat) (observation_shapes : List (List Nat)) :
    define_observation_space num_agents observation_shapes =
        Except.error "Image observations are not supported." ↔
      ∃ shape ∈ observation_shapes, shape.length = 3 := by
  unfold define_observation_space
  split_ifs with h
  · simp only [List.any_eq_true, beq_iff_eq] at h
    exact iff_of_true rfl h
  · simp only [List.any_eq_true, beq_iff_eq] at h
    refine iff_of_false ?_ h
    intro hc
    simp at hc

end AgentGpt
